import Mathlib

/-!
Verification of the Occurrence & Relation Resolution Engine of the
synesis-lsp repository against its specification.

The development shallowly embeds the Python modules
`synesis_lsp/explorer_requests.py`, `synesis_lsp/ontology_annotations.py`
and `synesis_lsp/rename.py`.  Pure Python functions become Lean functions;
file I/O is modelled by an explicit file-system map (path to the list of
lines produced by `read_text().splitlines()`, a missing entry modelling
`OSError`); Python exceptions are modelled with `Except`; the module-level
result caches are threaded as explicit values.  Duck-typed Python values
(chain objects, field values, raw relation-mapping entries) are modelled by
the closed universe `PyVal`.  Machine-level caveats of the model, stated
once here: Python strings are treated as sequences of characters with
ASCII case folding and the ASCII whitespace set; `id()` object identity is
modelled by an explicit `pyid` field; compiler-supplied location `line` and
`column` attributes are modelled as int-or-None.
-/

set_option maxHeartbeats 1600000

/-! ## Character and string helpers (Python semantics) -/

/-- Python whitespace test used by `str.strip()`, `str.split()` and `\s`. -/
def pyIsSpace (c : Char) : Bool :=
  c = ' ' || c = '\t' || c = '\n' || c = '\x0d' || c = '\x0b' || c = '\x0c'

/-- ASCII lower-casing of one character, embedding `str.lower()`. -/
def pyToLowerChar (c : Char) : Char :=
  if 'A' ≤ c && c ≤ 'Z' then Char.ofNat (c.toNat + 32) else c

/-- ASCII upper-casing of one character, embedding `str.upper()`. -/
def pyToUpperChar (c : Char) : Char :=
  if 'a' ≤ c && c ≤ 'z' then Char.ofNat (c.toNat - 32) else c

/-- Data-level `str.strip()`. -/
def pyStripData (l : List Char) : List Char :=
  ((l.dropWhile pyIsSpace).reverse.dropWhile pyIsSpace).reverse

/-- Python `str.strip()`. -/
def pyStrip (s : String) : String :=
  String.mk (pyStripData s.data)

/-- Data-level `str.lower()`. -/
def pyLowerData (l : List Char) : List Char :=
  l.map pyToLowerChar

/-- Python `str.lower()`. -/
def pyLower (s : String) : String :=
  String.mk (pyLowerData s.data)

/-- Python `str.upper()`. -/
def pyUpper (s : String) : String :=
  String.mk (s.data.map pyToUpperChar)

/-- Helper for `pySplitData`: accumulates the current word (reversed). -/
def pySplitAux : List Char → List Char → List (List Char)
  | [], acc => if acc.isEmpty then [] else [acc.reverse]
  | c :: rest, acc =>
    if pyIsSpace c then
      if acc.isEmpty then pySplitAux rest [] else acc.reverse :: pySplitAux rest []
    else
      pySplitAux rest (c :: acc)

/-- Data-level `str.split()` with no arguments: splits on whitespace runs,
discarding empty words. -/
def pySplitData (l : List Char) : List (List Char) :=
  pySplitAux l []

/-- Data-level `" ".join(words)`. -/
def pyJoinSpaceData : List (List Char) → List Char
  | [] => []
  | [w] => w
  | w :: ws => w ++ ' ' :: pyJoinSpaceData ws

/-- Python `"sub" in s` on character data: any occurrence of `pat` in `l`. -/
def containsSub (l pat : List Char) : Bool :=
  match l with
  | [] => pat.isEmpty
  | _ :: rest => pat.isPrefixOf l || containsSub rest pat

/-- Python `s.find(pat)` restricted to our needs: index of the earliest
occurrence of `pat`, scanning from the front. -/
def findSub (l pat : List Char) : Option Nat :=
  match l with
  | [] => if pat.isEmpty then some 0 else Option.none
  | _ :: rest =>
    if pat.isPrefixOf l then some 0
    else (findSub rest pat).map (· + 1)

/-- Python `s.rfind(pat)`: index of the last occurrence, or none. -/
def rfindSub (l pat : List Char) : Option Nat :=
  match l with
  | [] => if pat.isEmpty then some 0 else Option.none
  | _ :: rest =>
    match rfindSub rest pat with
    | some i => some (i + 1)
    | Option.none => if pat.isPrefixOf l then some 0 else Option.none

/-- Structural split of a character list at a separator character. -/
def splitCharAux (sep : Char) : List Char → List Char → List (List Char)
  | [], cur => [cur.reverse]
  | c :: rest, cur =>
    if c = sep then cur.reverse :: splitCharAux sep rest []
    else splitCharAux sep rest (c :: cur)

/-- `str.split(sep)` for a one-character separator. -/
def splitOnChar (sep : Char) (s : String) : List String :=
  (splitCharAux sep s.data []).map String.mk

/-- Structural split at the two-character separator "->"; the first
argument is fuel (one unit per character consumed, so the character count
always suffices). -/
def splitArrowAux : Nat → List Char → List Char → List (List Char)
  | 0, l, cur => [(cur.reverse ++ l)]
  | _ + 1, [], cur => [cur.reverse]
  | fuel + 1, c :: rest, cur =>
    if c = '-' then
      match rest with
      | c2 :: rest2 =>
        if c2 = '>' then cur.reverse :: splitArrowAux fuel rest2 []
        else splitArrowAux fuel rest (c :: cur)
      | [] => splitArrowAux fuel rest (c :: cur)
    else splitArrowAux fuel rest (c :: cur)

/-- `str.split("->")`. -/
def splitOnArrow (s : String) : List String :=
  (splitArrowAux s.data.length s.data []).map String.mk

/-- `str.startswith(pre)` by character-list prefix. -/
def strStartsWith (s pre : String) : Bool := pre.data.isPrefixOf s.data

/-- `str.endswith(c)` for a single-character suffix. -/
def strEndsWith (s : String) (c : Char) : Bool := s.data.getLast? = some c

/-- Python `str.splitlines()` (restricted to `\n` line endings). -/
def pySplitlines (s : String) : List String :=
  if s.isEmpty then []
  else
    let parts := splitOnChar '\n' s
    if strEndsWith s '\n' then parts.dropLast else parts

/-- Length of the run of leading spaces and tabs:
`len(line) - len(line.lstrip(" \t"))`. -/
def leadingIndent (l : List Char) : Nat :=
  (l.takeWhile (fun c => c = ' ' || c = '\t')).length

/-! ## The Python value universe for duck-typed data -/

/-- Keys of duck-typed Python dicts appearing in the code: strings, or the
normalized-triple tuples used by raw relation mappings. -/
inductive PyKey where
  | str (s : String)
  | tup (xs : List String)
  | other
deriving DecidableEq, Repr

/-- Closed universe of the duck-typed Python values the engine inspects:
chains, field values and raw relation-mapping entries.  Python lists,
tuples and sets are collapsed into `list` (every `isinstance` test in the
embedded modules that accepts one of the three accepts all the relevant
ones at that site).  Values are finite trees, so the `id()`-based cycle
guard of `_flatten_values` never fires in the model. -/
inductive PyVal where
  | none
  | str (s : String)
  | int (n : Int)
  | list (xs : List PyVal)
  | dict (entries : List (PyKey × PyVal))
  | obj (attrs : List (String × PyVal))

/-- First-match association lookup (Python dict/attribute lookup; keys are
unique in genuine Python dicts and objects). -/
def assocLookup {α β : Type} [DecidableEq α] : List (α × β) → α → Option β
  | [], _ => Option.none
  | (k, v) :: rest, key => if k = key then some v else assocLookup rest key

/-- Python `getattr(v, name, None)`, returning `none` when the attribute is
missing.  Only `obj` values carry attributes. -/
def pyGetattr : PyVal → String → Option PyVal
  | .obj attrs, name => assocLookup attrs name
  | _, _ => Option.none

/-- Python `getattr(v, name, None)` collapsing a missing attribute to
`None`, as every `getattr(..., None)` call site does. -/
def pyGetattrN (v : PyVal) (name : String) : PyVal :=
  (pyGetattr v name).getD PyVal.none

/-- Python truthiness of a `PyVal`. -/
def pyTruthy : PyVal → Bool
  | .none => false
  | .str s => !s.isEmpty
  | .int n => n != 0
  | .list xs => !xs.isEmpty
  | .dict es => !es.isEmpty
  | .obj _ => true

/-- Python `dict.get(key)` for duck-typed dicts. -/
def pyDictGet (v : PyVal) (key : PyKey) : Option PyVal :=
  match v with
  | .dict es => assocLookup es key
  | _ => Option.none

/-- `repr` of a dict key. -/
def pyReprKey : PyKey → String
  | .str s => "'" ++ s ++ "'"
  | .tup xs => "(" ++ String.intercalate ", " (xs.map (fun x => "'" ++ x ++ "'")) ++ ")"
  | .other => "<key>"

mutual

/-- Python `repr()` over the modelled universe (objects render as an
address-free placeholder). -/
def pyRepr : PyVal → String
  | .none => "None"
  | .str s => "'" ++ s ++ "'"
  | .int n => toString n
  | .list xs => "[" ++ String.intercalate ", " (pyReprList xs) ++ "]"
  | .dict es => "\x7b" ++ String.intercalate ", " (pyReprEntries es) ++ "\x7d"
  | .obj _ => "<object>"

/-- `repr` of each list element. -/
def pyReprList : List PyVal → List String
  | [] => []
  | x :: xs => pyRepr x :: pyReprList xs

/-- `repr` of each dict entry. -/
def pyReprEntries : List (PyKey × PyVal) → List String
  | [] => []
  | (k, v) :: es => (pyReprKey k ++ ": " ++ pyRepr v) :: pyReprEntries es

end

/-- Python `str()` over the modelled universe. -/
def pyStr : PyVal → String
  | .str s => s
  | v => pyRepr v

/-! ## Modelled Python exceptions -/

/-- The Python exceptions the embedded code can raise. -/
inductive PyExc where
  | nameError (name : String)
  | typeError
  | attributeError (name : String)
deriving DecidableEq, Repr

/-! ## Compiled document model (external contract consumed read-only) -/

/-- A compiler `SourceLocation`: the attributes always exist, their values
may be `None`. -/
structure Loc where
  file : Option String
  line : Option Int
  column : Option Int
deriving DecidableEq, Repr

/-- An ontology concept node (only its definition location is read). -/
structure OntoNode where
  location : Option Loc

/-- The slice of `item.source` the engine reads. -/
structure ItemSource where
  location : Option Loc

/-- A compiled annotation `Item`.  `pyid` models CPython object identity
(`id(item)`); distinct objects carry distinct ids. -/
structure Item where
  pyid : Nat
  location : Option Loc
  source : Option ItemSource
  codes : List String
  chains : List PyVal
  extra_fields : List (String × PyVal)
  field_locations : Option (List (String × Loc))
  code_locations : List (String × List PyVal)
  name : Option String
  id : Option String

/-- A compiled `SourceNode`. -/
structure Source where
  pyid : Nat
  bibref : String
  items : List Item
  fields : List (String × String)
  location : Option Loc

/-- The duck-typed `lp.sources` collection (dict, sequence, or something
else, as `_iter_sources` distinguishes). -/
inductive Sources where
  | dict (entries : List (String × Source))
  | seq (xs : List Source)
  | other

/-- A scope or type tag of a field spec: `getattr(x, "name", None)` with a
`str(x)` fallback. -/
structure PyNamed where
  name : Option String
  asStr : String

/-- A template `FieldSpec`.  `relations` is truthy iff non-empty. -/
structure FieldSpec where
  scope : Option PyNamed
  type : Option PyNamed
  relations : List String

/-- A compiled template (only `field_specs` is read). -/
structure Template where
  field_specs : List (String × FieldSpec)

/-- The `LinkedProject` attribute surface the three modules probe. -/
structure LinkedProject where
  sources : Sources
  code_usage : Option (List (String × List Item))
  code_usage_index : Option (List (String × List Item))
  code_usage_by_code : Option (List (String × List Item))
  code_usage_map : Option (List (String × List Item))
  ontology_index : List (String × OntoNode)
  all_triples : List (String × String × String)
  relation_index : Option PyVal
  relations_index : Option PyVal
  relation_locations : Option PyVal
  relation_location_index : Option PyVal
  triple_index : Option PyVal
  chains : Option PyVal
  all_chains : Option PyVal
  chain_index : Option PyVal
  relations : Option PyVal
  relation_triples : Option PyVal

/-- A `CompilationResult` (attribute surface). -/
structure CompilationResult where
  linked_project : Option LinkedProject
  template : Option Template

/-- A `CachedCompilation` from `cache.py`: compile result plus timestamp
and workspace root.  `pyid` models `id(cached_result)`; the float
timestamp is modelled as an integer (only equality of cache keys is ever
used). -/
structure CachedCompilation where
  pyid : Nat
  result : Option CompilationResult
  timestamp : Option Int
  workspace_root : Option String

/-- The file system visible to `read_text`: workspace-resolved path to the
`splitlines()` of the file content.  A missing entry models `OSError`. -/
def Fs : Type := List (String × List String)

/-- Reading a file: `read_text().splitlines()` or an `OSError`. -/
def fsRead (fs : Fs) (path : String) : Option (List String) :=
  assocLookup fs path

/-! ## Path helpers (pathlib / urllib semantics restricted to this use) -/

/-- Hex digit test for percent-decoding. -/
def isHexDigitCh (c : Char) : Bool :=
  c.isDigit || ('a' ≤ c && c ≤ 'f') || ('A' ≤ c && c ≤ 'F')

/-- Value of a hex digit. -/
def hexValCh (c : Char) : Nat :=
  if c.isDigit then c.toNat - '0'.toNat
  else if 'a' ≤ c && c ≤ 'f' then c.toNat - 'a'.toNat + 10
  else c.toNat - 'A'.toNat + 10

/-- Data-level `urllib.parse.unquote` (percent escapes of ASCII bytes). -/
def unquoteData : List Char → List Char
  | '%' :: a :: b :: rest =>
    if isHexDigitCh a && isHexDigitCh b then
      Char.ofNat (16 * hexValCh a + hexValCh b) :: unquoteData rest
    else '%' :: unquoteData (a :: b :: rest)
  | c :: rest => c :: unquoteData rest
  | [] => []

/-- Python `urllib.parse.unquote`. -/
def pyUnquote (s : String) : String :=
  String.mk (unquoteData s.data)

/-- Parse a POSIX path string into (absolute?, parts), the way
`pathlib.PurePosixPath` does: empty and single-dot components vanish. -/
def pathParse (s : String) : Bool × List String :=
  (strStartsWith s "/", (splitOnChar '/' s).filter (fun p => p ≠ "" && p ≠ "."))

/-- `Path(s).as_posix()` (equally the `str()` form of the parsed path). -/
def pathAsPosix (s : String) : String :=
  let (isAbs, parts) := pathParse s
  if parts.isEmpty then (if isAbs then "/" else ".")
  else (if isAbs then "/" else "") ++ String.intercalate "/" parts

/-- `Path(p).relative_to(root).as_posix()`, or `none` for the `ValueError`
case (root is not a leading prefix of p). -/
def pathRelativeTo (p root : String) : Option String :=
  let pr := pathParse p
  let rr := pathParse root
  if pr.1 = rr.1 && rr.2.isPrefixOf pr.2 then
    let rest := pr.2.drop rr.2.length
    some (if rest.isEmpty then "." else String.intercalate "/" rest)
  else Option.none

namespace Explorer

/-- Embeds `_normalize_code` of explorer_requests.py:
`value.strip().lower()`. -/
def normalize_code (value : String) : String :=
  pyLower (pyStrip value)

/-- Embeds `_normalize_triple`. -/
def normalize_triple (subject relation obj : String) : String × String × String :=
  (normalize_code subject, normalize_code relation, normalize_code obj)

/-- Embeds `_normalize_file_path`: `file://` URIs are unwrapped (netloc
reattached, Windows drive slash stripped), other strings become paths. -/
def normalize_file_path (path_str : String) : Option String :=
  if path_str.isEmpty then Option.none
  else if strStartsWith path_str "file://" then
    let rest := path_str.drop 7
    let netloc := String.mk (rest.data.takeWhile (· ≠ '/'))
    let rawPath := String.mk (rest.data.drop netloc.length)
    let path_val := pyUnquote rawPath
    let path_val := if netloc.isEmpty then path_val else "//" ++ netloc ++ path_val
    let path_val :=
      match path_val.data with
      | a :: _ :: c :: _ => if a = '/' && c = ':' then String.mk path_val.data.tail else path_val
      | _ => path_val
    some path_val
  else some path_str

/-- Embeds `_relativize_path`: relativize to the workspace root when
possible, else the posix form of the path. -/
def relativize_path (path_str : String) (workspace_root : Option String) : String :=
  match normalize_file_path path_str with
  | Option.none => path_str
  | some path =>
    match workspace_root with
    | some root =>
      match pathRelativeTo path root with
      | some rel => rel
      | Option.none => pathAsPosix path
    | Option.none => pathAsPosix path

/-- Embeds `_resolve_file_for_read`; the result is the `str()` of the
resulting `Path` (used as file-cache key and read path). -/
def resolve_file_for_read (file_val : String) (workspace_root : Option String) : Option String :=
  match normalize_file_path file_val with
  | Option.none => Option.none
  | some path =>
    if strStartsWith path "/" then some (pathAsPosix path)
    else
      match workspace_root with
      | some root => some (pathAsPosix (root ++ "/" ++ path))
      | Option.none => some (pathAsPosix path)

/-- Embeds `_iter_sources`. -/
def iter_sources : Sources → List Source
  | .dict es => es.map Prod.snd
  | .seq xs => xs
  | .other => []

mutual

/-- Embeds `_iter_string_values` (shared verbatim with
ontology_annotations.py): flatten nested strings. -/
def iter_string_values : PyVal → List String
  | .str s => [s]
  | .list xs => iter_string_values_list xs
  | .dict es => iter_string_values_entries es
  | _ => []

/-- Flattening of list elements. -/
def iter_string_values_list : List PyVal → List String
  | [] => []
  | x :: xs => iter_string_values x ++ iter_string_values_list xs

/-- Flattening of dict values. -/
def iter_string_values_entries : List (PyKey × PyVal) → List String
  | [] => []
  | (_, v) :: es => iter_string_values v ++ iter_string_values_entries es

end

/-- Embeds `_iter_chain_values` (shared verbatim with
ontology_annotations.py). -/
def iter_chain_values : PyVal → List PyVal
  | .list xs => xs
  | .dict es => es.map Prod.snd
  | v => [v]

/-- The node filter `[n for n in nodes if isinstance(n, str) and n.strip()]`. -/
def strNodesFilter (xs : List PyVal) : List String :=
  xs.filterMap (fun v =>
    match v with
    | .str s => if (pyStrip s).isEmpty then Option.none else some s
    | _ => Option.none)

/-- Embeds `_chain_nodes` (shared verbatim with ontology_annotations.py). -/
def chain_nodes (chain : PyVal) : List String :=
  match chain with
  | .none => []
  | .str s =>
    if containsSub s.data ['-', '>'] then
      ((splitOnArrow s).map pyStrip).filter (fun p => !p.isEmpty)
    else [s]
  | .dict es =>
    match assocLookup es (PyKey.str "nodes") with
    | some (.list xs) => strNodesFilter xs
    | _ =>
      if (assocLookup es (PyKey.str "from")).isSome && (assocLookup es (PyKey.str "relation")).isSome
          && (assocLookup es (PyKey.str "to")).isSome then
        strNodesFilter [((assocLookup es (PyKey.str "from")).getD .none),
          ((assocLookup es (PyKey.str "relation")).getD .none),
          ((assocLookup es (PyKey.str "to")).getD .none)]
      else if (assocLookup es (PyKey.str "subject")).isSome && (assocLookup es (PyKey.str "relation")).isSome
          && (assocLookup es (PyKey.str "object")).isSome then
        strNodesFilter [((assocLookup es (PyKey.str "subject")).getD .none),
          ((assocLookup es (PyKey.str "relation")).getD .none),
          ((assocLookup es (PyKey.str "object")).getD .none)]
      else []
  | c =>
    match pyGetattr c "nodes" with
    | some (.list xs) => strNodesFilter xs
    | _ =>
      match c with
      | .list xs => strNodesFilter xs
      | _ => []

/-- Python slice `nodes[::2]`: the even-indexed elements. -/
def sliceStep2 {α : Type} : List α → List α
  | [] => []
  | [a] => [a]
  | a :: _ :: rest => a :: sliceStep2 rest

/-- The stripped, non-empty node list computed at the top of
`_extract_chain_codes`: the "extracted node list". -/
def extracted_nodes (chain : PyVal) : List String :=
  (chain_nodes chain).filterMap (fun n =>
    let t := pyStrip n
    if t.isEmpty then Option.none else some t)

/-- Embeds `_extract_chain_codes`. -/
def extract_chain_codes (chain : PyVal) (field_spec : Option FieldSpec) : List String :=
  let nodes := extracted_nodes chain
  if nodes.isEmpty then []
  else
    let has_relations := !((field_spec.map FieldSpec.relations).getD []).isEmpty
    if has_relations then
      match pyGetattr chain "relations" with
      | some (.list rs) =>
        if !rs.isEmpty then nodes
        else if nodes.length ≥ 3 && nodes.length % 2 = 1 then sliceStep2 nodes else nodes
      | _ =>
        if nodes.length ≥ 3 && nodes.length % 2 = 1 then sliceStep2 nodes else nodes
    else nodes

/-- Embeds `_chain_value_contains_code`. -/
def chain_value_contains_code (value : PyVal) (code : String) (field_spec : Option FieldSpec) : Bool :=
  let target := normalize_code code
  (iter_chain_values value).any (fun candidate =>
    (extract_chain_codes candidate field_spec).any (fun c => normalize_code c = target))

/-- Embeds `_value_contains_code`. -/
def value_contains_code (value : PyVal) (code : String) : Bool :=
  let target := normalize_code code
  (iter_string_values value).any (fun item => normalize_code item = target)

/-- Resolution of `getattr(x, "name", None) or str(x or "")` for the
scope/type tags of a field spec. -/
def pyNamedName (n : Option PyNamed) : String :=
  match n with
  | Option.none => ""
  | some o =>
    match o.name with
    | some s => if s.isEmpty then o.asStr else s
    | Option.none => o.asStr

/-- Embeds `_is_chain_field`. -/
def is_chain_field (spec : Option FieldSpec) : Bool :=
  match spec with
  | Option.none => false
  | some sp =>
    if !sp.relations.isEmpty then true
    else containsSub (pyUpper (pyNamedName sp.type)).data "CHAIN".data

/-- Embeds `_is_code_field`. -/
def is_code_field (spec : Option FieldSpec) : Bool :=
  match spec with
  | Option.none => false
  | some sp =>
    if is_chain_field (some sp) then true
    else containsSub (pyUpper (pyNamedName sp.type)).data "CODE".data

/-- Python `set.add` modelled on an order-irrelevant membership list. -/
def setAdd (s : List String) (x : String) : List String :=
  if s.contains x then s else s ++ [x]

/-- Python `dict[k] = v` keeping insertion order. -/
def assocUpdate {α β : Type} [DecidableEq α] : List (α × β) → α → β → List (α × β)
  | [], k, v => [(k, v)]
  | (k0, v0) :: rest, k, v =>
    if k0 = k then (k0, v) :: rest else (k0, v0) :: assocUpdate rest k v

/-- Python `dict.setdefault(k, v)` (only the resulting dict). -/
def assocSetdefault {α β : Type} [DecidableEq α] (m : List (α × β)) (k : α) (v : β) :
    List (α × β) :=
  if (assocLookup m k).isSome then m else m ++ [(k, v)]

/-- Python `dict.setdefault(k, []).append(x)`. -/
def assocAppend {α β : Type} [DecidableEq α] : List (α × List β) → α → β → List (α × List β)
  | [], k, x => [(k, [x])]
  | (k0, v0) :: rest, k, x =>
    if k0 = k then (k0, v0 ++ [x]) :: rest else (k0, v0) :: assocAppend rest k x

/-- Python `dict.setdefault(k, []).extend(xs)`. -/
def assocExtend {α β : Type} [DecidableEq α] : List (α × List β) → α → List β → List (α × List β)
  | [], k, xs => [(k, xs)]
  | (k0, v0) :: rest, k, xs =>
    if k0 = k then (k0, v0 ++ xs) :: rest else (k0, v0) :: assocExtend rest k xs

/-- Embeds `_item_field_maps`: the ITEM-scoped CODE field set, CHAIN field
set and chain-relations map, seeded with the built-in defaults. -/
def item_field_maps (field_specs : List (String × FieldSpec)) :
    List String × List String × List (String × Bool) :=
  let res := field_specs.foldl
    (fun (acc : List String × List String × List (String × Bool)) (p : String × FieldSpec) =>
      let (cf, chf, chr) := acc
      let (name, spec) := p
      let scope_name := pyUpper ((splitOnChar '.' (pyNamedName spec.scope)).getLastD "")
      if scope_name ≠ "ITEM" then acc
      else
        let type_name := pyNamedName spec.type
        let field_name := pyLower name
        let cf2 := if pyUpper type_name = "CODE" then setAdd cf field_name else cf
        if is_chain_field (some spec) then
          (cf2, setAdd chf field_name, assocUpdate chr field_name (!spec.relations.isEmpty))
        else (cf2, chf, chr))
    (["code", "codes"], ["chain", "chains"], ([] : List (String × Bool)))
  (res.1, res.2.1, res.2.1.foldl (fun m f => assocSetdefault m f false) res.2.2)

/-- Embeds `_iter_codes_from_item`. -/
def iter_codes_from_item (item : Item) (field_specs : List (String × FieldSpec)) : List String :=
  let fromCodes := item.codes.filter (fun c => !(pyStrip c).isEmpty)
  let chain_spec := assocLookup field_specs "chain"
  let fromChains := item.chains.flatMap (fun chain =>
    (extract_chain_codes chain chain_spec).filter (fun c => !(pyStrip c).isEmpty))
  let fromExtras := item.extra_fields.flatMap (fun (p : String × PyVal) =>
    let spec := assocLookup field_specs p.1
    if is_chain_field spec then
      (iter_chain_values p.2).flatMap (fun candidate =>
        (extract_chain_codes candidate spec).filter (fun c => !(pyStrip c).isEmpty))
    else if !is_code_field spec then []
    else (iter_string_values p.2).filter (fun c => !(pyStrip c).isEmpty))
  fromCodes ++ fromChains ++ fromExtras

/-- Embeds `_build_code_usage_from_sources`. -/
def build_code_usage_from_sources (lp : LinkedProject)
    (field_specs : List (String × FieldSpec)) : List (String × List Item) :=
  (iter_sources lp.sources).foldl (fun usage src =>
    src.items.foldl (fun usage item =>
      (iter_codes_from_item item field_specs).foldl (fun usage code =>
        assocAppend usage code item) usage) usage) []

/-- The probe loop of `_get_code_usage`: first attribute holding a truthy
mapping. -/
def firstNonemptyUsage : List (Option (List (String × List Item))) →
    Option (List (String × List Item))
  | [] => Option.none
  | v :: rest =>
    match v with
    | some u => if !u.isEmpty then some u else firstNonemptyUsage rest
    | Option.none => firstNonemptyUsage rest

/-- Embeds `_get_code_usage`. -/
def get_code_usage (lp : LinkedProject) (field_specs : List (String × FieldSpec)) :
    List (String × List Item) :=
  match firstNonemptyUsage
      [lp.code_usage, lp.code_usage_index, lp.code_usage_by_code, lp.code_usage_map] with
  | some u => u
  | Option.none => build_code_usage_from_sources lp field_specs

end Explorer

namespace Explorer

/-! ## The raw-source text re-scanner (tier 2 of the Occurrence Locator) -/

/-- One occurrence record, as emitted by the occurrence builders of
explorer_requests.py: the dict
`{"file": .., "line": .., "column": .., "context": .., "field": ..}`. -/
structure Occ where
  file : String
  line : Option Int
  column : Option Int
  context : String
  field : String
deriving DecidableEq, Repr

/-- Module-level name bindings of explorer_requests.py.  The module imports
only `logging`, `pathlib.Path`, `typing` names and `urllib.parse` names;
`re` is imported only inside the function `_find_code_in_field_value`
(a function-local binding), so the module-global name `re` read by
`_parse_item_block_occurrences` is unbound. -/
def explorer_module_binds_re : Bool := false

/-- Embeds `_strip_comment`. -/
def strip_comment (text : List Char) : List Char :=
  match findSub text ['#'] with
  | Option.none => text
  | some idx => text.take idx

/-- Embeds `_split_with_offsets(text, "->")` (the only delimiter the
source passes): segments between arrows, each with its start offset. -/
def split_with_offsets_arrow : List Char → List Char → Nat → List (List Char × Nat)
  | '-' :: '>' :: rest, cur, start =>
    (cur.reverse, start) :: split_with_offsets_arrow rest [] (start + cur.length + 2)
  | c :: rest, cur, start => split_with_offsets_arrow rest (c :: cur) start
  | [], cur, start => [(cur.reverse, start)]

/-- Embeds `_split_with_offsets` at its call site. -/
def split_with_offsets (text : List Char) : List (List Char × Nat) :=
  split_with_offsets_arrow text [] 0

/-- The comma-splitting loop of `_iter_code_tokens`, with offsets. -/
def split_comma : List Char → List Char → Nat → List (List Char × Nat)
  | ',' :: rest, cur, start => (cur.reverse, start) :: split_comma rest [] (start + cur.length + 1)
  | c :: rest, cur, start => split_comma rest (c :: cur) start
  | [], cur, start => [(cur.reverse, start)]

/-- Embeds `_iter_code_tokens`: comma-separated tokens of a CODE-typed
value with their absolute start offsets. -/
def iter_code_tokens (value_text : List Char) (base_offset : Nat) : List (String × Nat) :=
  let text := strip_comment value_text
  (split_comma text [] 0).filterMap (fun (p : List Char × Nat) =>
    let token_text := pyStripData p.1
    if token_text.isEmpty then Option.none
    else
      let leading_ws := p.1.length - (p.1.dropWhile pyIsSpace).length
      some (String.mk token_text, base_offset + p.2 + leading_ws))

/-- Embeds `_segment_to_token`: one chain hop, with an optional
`type::` qualifier stripped. -/
def segment_to_token (segment : List Char) (segment_start : Nat) : Option (String × Nat) :=
  let leading_ws := segment.length - (segment.dropWhile pyIsSpace).length
  let trimmed := pyStripData segment
  if trimmed.isEmpty then Option.none
  else
    match rfindSub trimmed [':', ':'] with
    | some i =>
      let idx0 := i + 2
      let idx := idx0 + ((trimmed.drop idx0).takeWhile pyIsSpace).length
      if idx < trimmed.length then
        some (String.mk (pyStripData (trimmed.drop idx)), segment_start + leading_ws + idx)
      else some (String.mk trimmed, segment_start + leading_ws)
    | Option.none => some (String.mk trimmed, segment_start + leading_ws)

/-- The hop list of `_iter_chain_tokens` before the relations split:
comment-stripped text split on arrows, each hop tokenized. -/
def chain_token_nodes (value_text : List Char) : List (String × Nat) :=
  (split_with_offsets (strip_comment value_text)).filterMap
    (fun (p : List Char × Nat) => segment_to_token p.1 p.2)

/-- Embeds `_iter_chain_tokens`: arrow-separated hops; under a
relations-declaring field an odd hop count of at least 3 keeps only the
even-indexed hops. -/
def iter_chain_tokens (value_text : List Char) (base_offset : Nat) (has_relations : Bool) :
    List (String × Nat) :=
  let nodes := chain_token_nodes value_text
  if nodes.isEmpty then []
  else
    let nodes2 :=
      if has_relations && nodes.length ≥ 3 && nodes.length % 2 = 1 then sliceStep2 nodes
      else nodes
    nodes2.map (fun (p : String × Nat) => (p.1, base_offset + p.2))

/-- Embeds `_record_value_occurrences`. -/
def record_value_occurrences (occurrences : List (String × List Occ)) (value_text : List Char)
    (base_offset : Nat) (line_idx : Nat) (file_rel : String) (field_name : String)
    (is_chain has_relations : Bool) : List (String × List Occ) :=
  let context := if is_chain then "chain" else "code"
  let tokens :=
    if is_chain then iter_chain_tokens value_text base_offset has_relations
    else iter_code_tokens value_text base_offset
  tokens.foldl (fun occs (p : String × Nat) =>
    let code_key := normalize_code p.1
    if code_key.isEmpty then occs
    else assocAppend occs code_key
      ⟨file_rel, some (Int.ofNat (line_idx + 1)), some (Int.ofNat (p.2 + 1)), context, field_name⟩)
    occurrences

/-- The character class `[\w._-]` of the field-label regex. -/
def isFieldNameChar (c : Char) : Bool :=
  c.isAlphanum || c = '_' || c = '.' || c = '-'

/-- A successful match of `^(\s*)([\w._-]+)\s*:\s*(.*)$`. -/
structure FieldLineMatch where
  indent : Nat
  name : String
  valueStart : Nat
  value : List Char
deriving DecidableEq, Repr

/-- Deterministic matcher for `^(\s*)([\w._-]+)\s*:\s*(.*)$` (the regex is
backtracking-free: the three character classes are pairwise disjoint from
the colon and from each other where it matters). -/
def reFieldMatch (line : List Char) : Option FieldLineMatch :=
  let ws := line.takeWhile pyIsSpace
  let afterWs := line.drop ws.length
  let nm := afterWs.takeWhile isFieldNameChar
  if nm.isEmpty then Option.none
  else
    let afterName := afterWs.drop nm.length
    let ws2 := afterName.takeWhile pyIsSpace
    match afterName.drop ws2.length with
    | ':' :: restAfterColon =>
      let ws3 := restAfterColon.takeWhile pyIsSpace
      some ⟨ws.length, String.mk nm, ws.length + nm.length + ws2.length + 1 + ws3.length,
        restAfterColon.drop ws3.length⟩
    | _ => Option.none

/-- Search for the `END ITEM` delimiter line: first index at or after
`idx` whose stripped text starts (upper-cased) with `END ITEM` at an
indent not exceeding the item indent; defaults to the line count. -/
def findEndItem : List (List Char) → Nat → Nat → Nat → Nat
  | [], _, _, dflt => dflt
  | line :: rest, idx, item_indent, dflt =>
    let stripped := pyStripData line
    if stripped.isEmpty then findEndItem rest (idx + 1) item_indent dflt
    else if strStartsWith (pyUpper (String.mk stripped)) "END ITEM"
        && leadingIndent line ≤ item_indent then idx
    else findEndItem rest (idx + 1) item_indent dflt

/-- The per-line state of the `_parse_item_block_occurrences` loop. -/
structure ParseFieldState where
  current_field : Option String
  current_field_indent : Option Nat
  current_field_is_chain : Bool
  current_field_has_relations : Bool
  occurrences : List (String × List Occ)

/-- Fold of a step function that can raise, over a list (the embedding of
a Python `for` loop whose body can raise). -/
def exceptFold {σ α : Type} (f : σ → α → Except PyExc σ) : σ → List α → Except PyExc σ
  | s, [] => .ok s
  | s, a :: rest =>
    match f s a with
    | .ok s2 => exceptFold f s2 rest
    | .error e => .error e

/-- One line of the `_parse_item_block_occurrences` scan.  Reaching the
`re.match` call with the module-global `re` unbound raises `NameError`. -/
def parseItemLineStep (code_fields chain_fields : List String)
    (chain_relations : List (String × Bool)) (file_rel : String)
    (st : ParseFieldState) (p : Nat × List Char) : Except PyExc ParseFieldState :=
  let (idx, line) := p
  let stripped := pyStripData line
  if stripped.isEmpty then .ok st
  else
    let indent := leadingIndent line
    let st :=
      if st.current_field.isSome && indent ≤ (st.current_field_indent.getD 0)
          && !strStartsWith (String.mk stripped) "#" then
        { st with
          current_field := Option.none
          current_field_indent := Option.none
          current_field_is_chain := false
          current_field_has_relations := false }
      else st
    if strStartsWith (String.mk stripped) "#" then .ok st
    else if !explorer_module_binds_re then .error (.nameError "re")
    else
      match reFieldMatch line with
      | some m =>
        let field_key := pyLower m.name
        let st2 :=
          if chain_fields.contains field_key then
            { st with
              current_field := some m.name
              current_field_indent := some m.indent
              current_field_is_chain := true
              current_field_has_relations := (assocLookup chain_relations field_key).getD false }
          else if code_fields.contains field_key then
            { st with
              current_field := some m.name
              current_field_indent := some m.indent
              current_field_is_chain := false
              current_field_has_relations := false }
          else
            { st with
              current_field := Option.none
              current_field_indent := Option.none
              current_field_is_chain := false
              current_field_has_relations := false }
        match st2.current_field with
        | some cf =>
          if !(pyStripData m.value).isEmpty then
            .ok { st2 with occurrences := (record_value_occurrences st2.occurrences m.value
              m.valueStart idx file_rel cf st2.current_field_is_chain
              st2.current_field_has_relations) }
          else .ok st2
        | Option.none => .ok st2
      | Option.none =>
        match st.current_field with
        | Option.none => .ok st
        | some cf =>
          if indent ≤ (st.current_field_indent.getD 0) then
            .ok { st with
              current_field := Option.none
              current_field_indent := Option.none
              current_field_is_chain := false
              current_field_has_relations := false }
          else
            .ok { st with occurrences := (record_value_occurrences st.occurrences line 0 idx
              file_rel cf st.current_field_is_chain st.current_field_has_relations) }

/-- Embeds `_parse_item_block_occurrences`. -/
def parse_item_block_occurrences (lines : List (List Char)) (start_idx : Int)
    (code_fields chain_fields : List String) (chain_relations : List (String × Bool))
    (file_rel : String) : Except PyExc (List (String × List Occ)) :=
  if start_idx < 0 || start_idx ≥ Int.ofNat lines.length then .ok []
  else
    let start := start_idx.toNat
    let item_line := lines.getD start []
    let item_indent := leadingIndent item_line
    let end_idx := findEndItem (lines.drop (start + 1)) (start + 1) item_indent lines.length
    let body := ((lines.drop (start + 1)).take (end_idx - (start + 1))).enumFrom (start + 1)
    match exceptFold (parseItemLineStep code_fields chain_fields chain_relations file_rel)
        ⟨Option.none, Option.none, false, false, []⟩ (body.map (fun q => (q.1, q.2))) with
    | .ok st => .ok st.occurrences
    | .error e => .error e

/-- The two memo tables `_get_item_text_occurrences` threads through one
index build: raw file lines per path, and parsed block occurrences per
(path, item start line). -/
structure ScanCtx where
  file_cache : List (String × List String)
  item_occ_cache : List ((String × Int) × List (String × List Occ))

/-- Truthiness of `getattr(loc, "file", None)` for a typed location. -/
def locFileTruthy : Option Loc → Bool
  | some l =>
    match l.file with
    | some f => !f.isEmpty
    | Option.none => false
  | Option.none => false

/-- Embeds `_get_item_location`. -/
def get_item_location (item : Item) : Option Loc :=
  if locFileTruthy item.location then item.location
  else
    let source_loc := match item.source with
      | some s => s.location
      | Option.none => Option.none
    if locFileTruthy source_loc then source_loc
    else
      match item.location with
      | some l => some l
      | Option.none => source_loc

/-- Embeds `_get_item_text_occurrences`.  Returns the (possibly empty)
occurrence mapping, or `none` for the early exits; the caller tests the
Python truthiness of the result, so an empty mapping behaves like `None`
there. -/
def get_item_text_occurrences (fs : Fs) (item : Item) (workspace_root : Option String)
    (ctx : ScanCtx) (code_fields chain_fields : List String)
    (chain_relations : List (String × Bool)) :
    Except PyExc (Option (List (String × List Occ)) × ScanCtx) :=
  match get_item_location item with
  | Option.none => .ok (Option.none, ctx)
  | some item_loc =>
    match item_loc.file, item_loc.line with
    | some file_val, some line =>
      if file_val.isEmpty then .ok (Option.none, ctx)
      else
        match resolve_file_for_read file_val workspace_root with
        | Option.none => .ok (Option.none, ctx)
        | some file_path =>
          let cache_key := (file_path, line)
          match assocLookup ctx.item_occ_cache cache_key with
          | some cached => .ok (some cached, ctx)
          | Option.none =>
            let cachedLines := assocLookup ctx.file_cache file_path
            match cachedLines with
            | Option.none =>
              match fsRead fs file_path with
              | Option.none =>
                let ctx2 := { ctx with item_occ_cache := assocUpdate ctx.item_occ_cache cache_key [] }
                .ok (some [], ctx2)
              | some ls =>
                let ctx2 := { ctx with file_cache := assocUpdate ctx.file_cache file_path ls }
                let file_rel := relativize_path file_val workspace_root
                match parse_item_block_occurrences (ls.map String.data) (line - 1) code_fields
                    chain_fields chain_relations file_rel with
                | .ok occs =>
                  .ok (some occs,
                    { ctx2 with item_occ_cache := assocUpdate ctx2.item_occ_cache cache_key occs })
                | .error e => .error e
            | some ls =>
              let file_rel := relativize_path file_val workspace_root
              match parse_item_block_occurrences (ls.map String.data) (line - 1) code_fields
                  chain_fields chain_relations file_rel with
              | .ok occs =>
                .ok (some occs,
                  { ctx with item_occ_cache := assocUpdate ctx.item_occ_cache cache_key occs })
              | .error e => .error e
    | _, _ => .ok (Option.none, ctx)

end Explorer

namespace Explorer

/-! ## The per-item occurrence builder (tiers 1 and 3, explorer side) -/

/-- Conversion of a location attribute value to int-or-None (locations in
the compiled model carry int or None coordinates). -/
def pyValToIntOpt : PyVal → Option Int
  | .int n => some n
  | _ => Option.none

/-- Direct attribute access `v.name` (raises `AttributeError` when the
attribute is missing). -/
def getattrOrThrow (v : PyVal) (name : String) : Except PyExc PyVal :=
  match pyGetattr v name with
  | some a => .ok a
  | Option.none => .error (.attributeError name)

/-- Python `getattr(v, name, dflt)` with an int default, collapsed to
int-or-None. -/
def getattrIntD (v : PyVal) (name : String) (dflt : Int) : Option Int :=
  match pyGetattr v name with
  | some a => pyValToIntOpt a
  | Option.none => some dflt

/-- Embeds `_is_chain_field_name`. -/
def is_chain_field_name (field_name : String) : Bool :=
  containsSub (pyUpper field_name).data "CHAIN".data

/-- Embeds `_extract_field_location`: the (line, column) of a field value,
through the four strategies of the source.  The `codes` strategy of the
source reads `getattr(item.codes, "location", None)`, which is always
`None` on a list, so it never produces a result. -/
def extract_field_location (item : Item) (field_name : String) :
    Except PyExc (Option (Option Int × Option Int)) :=
  match (match item.field_locations with
         | some m => if m.isEmpty then Option.none else assocLookup m field_name
         | Option.none => Option.none) with
  | some loc => .ok (some (loc.line, loc.column))
  | Option.none =>
    match assocLookup item.extra_fields field_name with
    | some field_obj =>
      let loc := pyGetattrN field_obj "location"
      if pyTruthy loc then
        match getattrOrThrow loc "line", getattrOrThrow loc "column" with
        | .ok lv, .ok cv => .ok (some (pyValToIntOpt lv, pyValToIntOpt cv))
        | .error e, _ => .error e
        | _, .error e => .error e
      else chainAndItemFallback item field_name
    | Option.none => chainAndItemFallback item field_name
where
  /-- Strategies 3 (chains) and the item-location fallback. -/
  chainAndItemFallback (item : Item) (field_name : String) :
      Except PyExc (Option (Option Int × Option Int)) :=
    let tryChains := field_name = "CHAIN" || is_chain_field_name field_name
    let chainLoc :=
      if tryChains then
        match item.chains with
        | c :: _ => some (pyGetattrN c "location")
        | [] => Option.none
      else Option.none
    match chainLoc with
    | some loc =>
      if pyTruthy loc then
        match getattrOrThrow loc "line", getattrOrThrow loc "column" with
        | .ok lv, .ok cv => .ok (some (pyValToIntOpt lv, pyValToIntOpt cv))
        | .error e, _ => .error e
        | _, .error e => .error e
      else itemLocFallback item
    | Option.none => itemLocFallback item
  /-- The final `item.location` fallback. -/
  itemLocFallback (item : Item) : Except PyExc (Option (Option Int × Option Int)) :=
    match item.location with
    | some l => .ok (some (l.line, l.column))
    | Option.none => .ok Option.none

/-- Embeds `_stringify_value`. -/
def stringify_value : PyVal → String
  | .str s => s
  | .list xs => String.intercalate " " (xs.map pyStr)
  | .dict es => String.intercalate " " (es.map (fun e => pyStr e.2))
  | v => pyStr v

/-- The character class `\w` (ASCII model). -/
def isWordChar (c : Char) : Bool :=
  c.isAlphanum || c = '_'

/-- Maximal `\w` runs of a line with their start offsets: the matches of
`\b\w+\b`. -/
def wordRunsAux : List Char → List Char → Nat → Nat → List (String × Nat)
  | [], cur, runStart, _ =>
    if cur.isEmpty then [] else [(String.mk cur.reverse, runStart)]
  | c :: rest, cur, runStart, i =>
    if isWordChar c then
      wordRunsAux rest (c :: cur) (if cur.isEmpty then i else runStart) (i + 1)
    else if cur.isEmpty then wordRunsAux rest [] runStart (i + 1)
    else (String.mk cur.reverse, runStart) :: wordRunsAux rest [] 0 (i + 1)

/-- The `\b\w+\b` matches of a line. -/
def wordRuns (l : List Char) : List (String × Nat) :=
  wordRunsAux l [] 0 0

/-- Embeds `_find_code_in_field_value`.  A `None` start line (or a `None`
start column while a token matches on the first line) raises `TypeError`,
as the Python addition does. -/
def find_code_in_field_value (field_value : String) (code : String)
    (field_start_line field_start_column : Option Int) :
    Except PyExc (List (Int × Int)) :=
  let normalized_code := normalize_code code
  exceptFold (fun acc (p : Nat × String) =>
    match field_start_line with
    | Option.none => .error .typeError
    | some fsl =>
      let abs_line := fsl + Int.ofNat p.1
      exceptFold (fun acc2 (w : String × Nat) =>
        if normalize_code w.1 = normalized_code then
          if p.1 = 0 then
            match field_start_column with
            | Option.none => .error .typeError
            | some fsc => .ok (acc2 ++ [(abs_line, fsc + Int.ofNat w.2)])
          else .ok (acc2 ++ [(abs_line, Int.ofNat w.2 + 1)])
        else .ok acc2) acc (wordRuns p.2.data))
    [] ((splitOnChar '\n' field_value).enum)

/-- The identity key used by the `seen` set of `_build_code_occurrences`:
(file, line, column, field, context) with the field name verbatim. -/
def occIdentKey (o : Occ) : String × Option Int × Option Int × String × String :=
  (o.file, o.line, o.column, o.field, o.context)

/-- The dedup state of one `_build_code_occurrences` run. -/
structure BState where
  seen : List (String × Option Int × Option Int × String × String)
  occs : List Occ

/-- The guarded `seen.add` plus `occurrences.append` idiom. -/
def pushOcc (st : BState) (o : Occ) : BState :=
  if st.seen.contains (occIdentKey o) then st
  else ⟨st.seen ++ [occIdentKey o], st.occs ++ [o]⟩

/-- `pushOcc` that also reports whether the occurrence was appended (the
`found_text` flag of the text tier). -/
def pushOccFlag (st : BState × Bool) (o : Occ) : BState × Bool :=
  if st.1.seen.contains (occIdentKey o) then st
  else (⟨st.1.seen ++ [occIdentKey o], st.1.occs ++ [o]⟩, true)

/-- The `field_name` resolution of the chains branch:
`getattr(chain, "field_name", None) or getattr(chain, "field", None) or "CHAIN"`. -/
def chainFieldName (chain : PyVal) : String :=
  let a := pyGetattrN chain "field_name"
  if pyTruthy a then pyStr a
  else
    let b := pyGetattrN chain "field"
    if pyTruthy b then pyStr b else "CHAIN"

/-- The extra-fields branch of `_build_code_occurrences` for one field. -/
def buildExtraFieldStep (code normalized_code : String)
    (field_specs : List (String × FieldSpec)) (item : Item) (file_path : String)
    (line column : Int) (st : BState) (p : String × PyVal) : Except PyExc BState :=
  let (field_name, value) := p
  let spec := assocLookup field_specs field_name
  if is_chain_field spec then
    if !chain_value_contains_code value code spec then .ok st
    else
      match extract_field_location item field_name with
      | .error e => .error e
      | .ok field_loc =>
        .ok ((iter_chain_values value).foldl (fun st candidate =>
          let chain_codes := extract_chain_codes candidate spec
          if !chain_codes.any (fun c => normalize_code c = normalized_code) then st
          else
            let chain_loc := pyGetattrN candidate "location"
            let lc : Option Int × Option Int :=
              if pyTruthy chain_loc then
                (getattrIntD chain_loc "line" line, getattrIntD chain_loc "column" column)
              else
                match field_loc with
                | some fl => fl
                | Option.none => (some line, some column)
            pushOcc st ⟨file_path, lc.1, lc.2, "chain", field_name⟩) st)
  else if !value_contains_code value code then .ok st
  else
    match extract_field_location item field_name with
    | .error e => .error e
    | .ok field_loc =>
      match field_loc with
      | some fl =>
        let field_value_str := stringify_value value
        match find_code_in_field_value field_value_str code fl.1 fl.2 with
        | .error e => .error e
        | .ok positions =>
          .ok (positions.foldl (fun st q =>
            pushOcc st ⟨file_path, some q.1, some q.2, "code", field_name⟩) st)
      | Option.none =>
        .ok (pushOcc st ⟨file_path, some line, some column, "code", field_name⟩)

/-- The chains branch of `_build_code_occurrences` for one chain. -/
def buildChainStep (normalized_code : String) (chain_spec : Option FieldSpec)
    (file_path : String) (line column : Int) (st : BState) (chain : PyVal) : BState :=
  let chain_codes := extract_chain_codes chain chain_spec
  if chain_codes.isEmpty then st
  else if chain_codes.any (fun c => normalize_code c = normalized_code) then
    let field_name := chainFieldName chain
    let chain_loc := pyGetattrN chain "location"
    let lc : Option Int × Option Int :=
      if pyTruthy chain_loc then
        (getattrIntD chain_loc "line" line, getattrIntD chain_loc "column" column)
      else (some line, some column)
    pushOcc st ⟨file_path, lc.1, lc.2, "chain", field_name⟩
  else st

/-- The codes-list fallback of `_build_code_occurrences`. -/
def buildCodesFallback (normalized_code : String) (item : Item) (file_path : String)
    (line column : Int) (st : BState) : BState :=
  if item.codes.any (fun c => normalize_code c = normalized_code) then
    let already_covered := st.occs.any (fun occ =>
      occ.file = file_path && (occ.field = "CODE" || occ.field = "CODES")
        && !(occ.line = some line && occ.column = some column))
    if !already_covered then
      pushOcc st ⟨file_path, some line, some column, "code", "CODE"⟩
    else st
  else st

/-- The body of the items loop of `_build_code_occurrences`. -/
def buildItemStep (code normalized_code : String)
    (field_specs : List (String × FieldSpec)) (workspace_root : Option String) (fs : Fs)
    (code_fields chain_fields : List String) (chain_relations : List (String × Bool))
    (acc : BState × ScanCtx) (item : Item) : Except PyExc (BState × ScanCtx) :=
  let (st, ctx) := acc
  match get_item_location item with
  | Option.none => .ok acc
  | some item_loc =>
    match item_loc.file with
    | Option.none => .ok acc
    | some file_val =>
      if file_val.isEmpty then .ok acc
      else
        let file_path := relativize_path file_val workspace_root
        match item_loc.line, item_loc.column with
        | some line, some column =>
          match get_item_text_occurrences fs item workspace_root ctx code_fields chain_fields
              chain_relations with
          | .error e => .error e
          | .ok (text_occurrences, ctx2) =>
            let textTruthy := match text_occurrences with
              | some m => !m.isEmpty
              | Option.none => false
            let (st2, found_text) :=
              if textTruthy then
                ((match text_occurrences with
                  | some m => (assocLookup m normalized_code).getD []
                  | Option.none => []).foldl pushOccFlag (st, false))
              else (st, false)
            if found_text then .ok (st2, ctx2)
            else
              match exceptFold (buildExtraFieldStep code normalized_code field_specs item
                  file_path line column) st2 item.extra_fields with
              | .error e => .error e
              | .ok st3 =>
                let chain_spec := assocLookup field_specs "chain"
                let st4 := item.chains.foldl
                  (buildChainStep normalized_code chain_spec file_path line column) st3
                .ok (buildCodesFallback normalized_code item file_path line column st4, ctx2)
        | _, _ => .ok acc

/-- Embeds `_build_code_occurrences`. -/
def build_code_occurrences (code : String) (items : List Item)
    (field_specs : List (String × FieldSpec)) (workspace_root : Option String) (fs : Fs)
    (ctx : ScanCtx) (code_fields chain_fields : List String)
    (chain_relations : List (String × Bool)) : Except PyExc (List Occ × ScanCtx) :=
  match exceptFold (buildItemStep code (normalize_code code) field_specs workspace_root fs
      code_fields chain_fields chain_relations) (⟨[], []⟩, ctx) items with
  | .ok (st, ctx2) => .ok (st.occs, ctx2)
  | .error e => .error e

end Explorer

namespace Explorer

/-! ## Relation index and the three explorer request entry points -/

/-- A normalized (subject, relation, object) key. -/
abbrev RelKey := String × String × String

/-- The location dict stored in relation-index entries. -/
structure RelLoc where
  file : String
  line : Int
  column : Int
deriving DecidableEq, Repr

/-- One relation-index entry `{location?, type?}`. -/
structure RelIndexEntry where
  location : Option RelLoc
  type : Option String
deriving DecidableEq, Repr

/-- Embeds `_location_dict`.  Non-int line or column values are collapsed
to the None case (locations carry int-or-None coordinates). -/
def location_dict (location : PyVal) (workspace_root : Option String) : Option RelLoc :=
  if !pyTruthy location then Option.none
  else
    let get := fun (k : String) =>
      match location with
      | .dict es => (assocLookup es (PyKey.str k)).getD .none
      | v => pyGetattrN v k
    let fileV := get "file"
    if !pyTruthy fileV then Option.none
    else
      match pyValToIntOpt (get "line"), pyValToIntOpt (get "column") with
      | some l, some c =>
        some ⟨relativize_path (pyStr fileV) workspace_root, l, c⟩
      | _, _ => Option.none

/-- A typed location rendered back into the duck-typed universe (used when
`_location_dict` receives an item or source location object). -/
def locToPyVal (l : Loc) : PyVal :=
  .obj [("file", match l.file with | some f => .str f | Option.none => .none),
        ("line", match l.line with | some n => .int n | Option.none => .none),
        ("column", match l.column with | some n => .int n | Option.none => .none)]

/-- Sequence branch of `_extract_chain_triple`. -/
def tripleOfSeq : PyVal → Option (String × String × String)
  | .list (.str a :: .str b :: .str c :: _) => some (a, b, c)
  | _ => Option.none

/-- Nodes branch of `_extract_chain_triple`. -/
def tripleOfNodes (chain : PyVal) : Option (String × String × String) :=
  match pyGetattr chain "nodes" with
  | some (.list (.str a :: .str b :: .str c :: _)) => some (a, b, c)
  | _ => Option.none

/-- Dict-keys branch of `_extract_chain_triple` for one key set. -/
def tripleOfDictKeys (es : List (PyKey × PyVal)) (k1 k2 k3 : String) :
    Option (String × String × String) :=
  if (assocLookup es (PyKey.str k1)).isSome && (assocLookup es (PyKey.str k2)).isSome
      && (assocLookup es (PyKey.str k3)).isSome then
    match (assocLookup es (PyKey.str k1)).getD .none, (assocLookup es (PyKey.str k2)).getD .none,
        (assocLookup es (PyKey.str k3)).getD .none with
    | .str a, .str b, .str c => some (a, b, c)
    | _, _, _ => Option.none
  else Option.none

/-- Attribute-candidates branch of `_extract_chain_triple` for one
attribute triple. -/
def tripleOfAttrs (chain : PyVal) (k1 k2 k3 : String) : Option (String × String × String) :=
  match pyGetattr chain k1, pyGetattr chain k2, pyGetattr chain k3 with
  | some (.str a), some (.str b), some (.str c) => some (a, b, c)
  | _, _, _ => Option.none

/-- Embeds `_extract_chain_triple`. -/
def extract_chain_triple (chain : PyVal) : Option (String × String × String) :=
  tripleOfSeq chain <|> tripleOfNodes chain <|>
  (match chain with
   | .dict es =>
     tripleOfDictKeys es "from" "relation" "to" <|>
     tripleOfDictKeys es "subject" "relation" "object"
   | _ => Option.none) <|>
  tripleOfAttrs chain "from_code" "relation" "to_code" <|>
  tripleOfAttrs chain "source" "relation" "target" <|>
  tripleOfAttrs chain "subject" "relation" "object" <|>
  tripleOfAttrs chain "subj" "rel" "obj" <|>
  tripleOfAttrs chain "from" "relation" "to" <|>
  tripleOfAttrs chain "left" "relation" "right"

/-- Embeds `_chain_to_string` of explorer_requests.py. -/
def chain_to_string (chain : PyVal) : Option String :=
  match chain with
  | .str s => some s
  | .dict es =>
    let type_prefix := (assocLookup es (PyKey.str "type")).getD (.str "")
    if (assocLookup es (PyKey.str "from")).isSome && (assocLookup es (PyKey.str "relation")).isSome
        && (assocLookup es (PyKey.str "to")).isSome then
      let f := pyStr ((assocLookup es (PyKey.str "from")).getD .none)
      let r := pyStr ((assocLookup es (PyKey.str "relation")).getD .none)
      let t := pyStr ((assocLookup es (PyKey.str "to")).getD .none)
      if pyTruthy type_prefix then some (pyStr type_prefix ++ "::" ++ f ++ "-" ++ r ++ "-" ++ t)
      else some (f ++ "-" ++ r ++ "-" ++ t)
    else some (pyStr (.dict es))
  | v => some (pyStr v)

/-- Embeds `_extract_chain_type`: always "qualified" or "simple". -/
def extract_chain_type (chain : PyVal) : Option String :=
  let keyVal := fun (k : String) =>
    match chain with
    | .dict es => (assocLookup es (PyKey.str k)).getD .none
    | v => pyGetattrN v k
  if ["type", "chain_type", "kind", "label"].any (fun k => pyTruthy (keyVal k)) then
    some "qualified"
  else
    match chain_to_string chain with
    | some s => if !s.isEmpty && containsSub s.data [':', ':'] then some "qualified" else some "simple"
    | Option.none => some "simple"

mutual

/-- Embeds `_flatten_values` (on finite trees the id-based guard of the
source is invisible). -/
def flatten_values : PyVal → List PyVal
  | .dict es => flatten_entries es
  | .list xs => flatten_list xs
  | v => [v]

/-- Flattening of list elements. -/
def flatten_list : List PyVal → List PyVal
  | [] => []
  | x :: xs => flatten_values x ++ flatten_list xs

/-- Flattening of dict values. -/
def flatten_entries : List (PyKey × PyVal) → List PyVal
  | [] => []
  | (_, v) :: es => flatten_values v ++ flatten_entries es

end

/-- Embeds `_iter_lp_chains`. -/
def iter_lp_chains (lp : LinkedProject) : List PyVal :=
  [lp.chains, lp.all_chains, lp.chain_index, lp.relation_index, lp.relations,
    lp.relation_triples].flatMap (fun v =>
      match v with
      | some pv => flatten_values pv
      | Option.none => [])

/-- One candidate examined by the relation-index build: a chain (with its
owning item for phase 1, without for phase 3), or one raw-mapping entry
(phase 2). -/
inductive RelCandidate where
  | fromChain (chain : PyVal) (item : Option Item)
  | fromMapping (rawKey : PyKey) (value : PyVal)

/-- Resolution of one chain candidate, embedding the body of
`_index_chain` after its `key in index` guard: triple extraction, the
four-step location priority, and the type tag. -/
def resolveChainCandidate (chain : PyVal) (item : Option Item)
    (workspace_root : Option String) : Option (RelKey × RelIndexEntry) :=
  match extract_chain_triple chain with
  | Option.none => Option.none
  | some (s, r, o) =>
    let key := normalize_triple s r o
    let loc1 : Option RelLoc :=
      match chain with
      | .list xs =>
        if xs.length ≥ 4 then location_dict (xs.getD 3 .none) workspace_root else Option.none
      | _ => Option.none
    let loc2 := match loc1 with
      | some l => some l
      | Option.none =>
        let chain_loc := pyGetattrN chain "location"
        if pyTruthy chain_loc then location_dict chain_loc workspace_root else Option.none
    let loc3 := match loc2 with
      | some l => some l
      | Option.none =>
        match chain with
        | .dict es =>
          match assocLookup es (PyKey.str "location") with
          | some lv => location_dict lv workspace_root
          | Option.none => Option.none
        | _ => Option.none
    let loc4 := match loc3 with
      | some l => some l
      | Option.none =>
        match item with
        | Option.none => Option.none
        | some it =>
          let item_loc :=
            if !locFileTruthy it.location then
              match it.source with
              | some src => src.location
              | Option.none => it.location
            else it.location
          match item_loc with
          | some l => location_dict (locToPyVal l) workspace_root
          | Option.none => Option.none
    let entry : RelIndexEntry := ⟨loc4, extract_chain_type chain⟩
    if entry.location.isSome || entry.type.isSome then some (key, entry) else Option.none

/-- Resolution of one raw-mapping candidate, embedding the body of the
`_merge_relation_index_from_mapping` loop after its `key in index`
guard. -/
def resolveMappingCandidate (rawKey : PyKey) (value : PyVal)
    (workspace_root : Option String) : Option (RelKey × RelIndexEntry) :=
  match rawKey with
  | .tup (a :: b :: c :: _) =>
    let key := normalize_triple a b c
    let loc1 : Option RelLoc :=
      match value with
      | .list xs =>
        if xs.length ≥ 4 then location_dict (xs.getD 3 .none) workspace_root else Option.none
      | _ => Option.none
    let loc2 := match loc1 with
      | some l => some l
      | Option.none =>
        match value with
        | .dict es =>
          match assocLookup es (PyKey.str "location") with
          | some lv => location_dict lv workspace_root
          | Option.none => Option.none
        | _ => Option.none
    let loc3 := match loc2 with
      | some l => some l
      | Option.none => location_dict value workspace_root
    let entry : RelIndexEntry := ⟨loc3, extract_chain_type value⟩
    if entry.location.isSome || entry.type.isSome then some (key, entry) else Option.none
  | _ => Option.none

/-- Dispatch of candidate resolution. -/
def resolveCandidate (workspace_root : Option String) :
    RelCandidate → Option (RelKey × RelIndexEntry)
  | .fromChain chain item => resolveChainCandidate chain item workspace_root
  | .fromMapping k v => resolveMappingCandidate k v workspace_root

/-- The entries of a mapping attribute when it is a dict
(`isinstance(mapping, dict)`). -/
def mappingEntriesOf : Option PyVal → List (PyKey × PyVal)
  | some (.dict es) => es
  | _ => []

/-- The full candidate stream of `_build_relation_index`, in source order:
chains of every item of every source, then the five raw relation-mapping
attributes, then the flattened auxiliary chain collections. -/
def relation_candidates (lp : LinkedProject) : List RelCandidate :=
  ((iter_sources lp.sources).flatMap (fun src =>
    src.items.flatMap (fun item =>
      item.chains.map (fun chain => RelCandidate.fromChain chain (some item))))) ++
  ([lp.relation_index, lp.relations_index, lp.relation_locations,
    lp.relation_location_index, lp.triple_index].flatMap (fun m =>
      (mappingEntriesOf m).map (fun e => RelCandidate.fromMapping e.1 e.2))) ++
  ((iter_lp_chains lp).map (fun v => RelCandidate.fromChain v Option.none))

/-- One step of the relation-index build: the first entry written for a key
is permanent. -/
def relIndexStep (workspace_root : Option String) (index : List (RelKey × RelIndexEntry))
    (c : RelCandidate) : List (RelKey × RelIndexEntry) :=
  match resolveCandidate workspace_root c with
  | Option.none => index
  | some (k, e) => if (assocLookup index k).isSome then index else index ++ [(k, e)]

/-- Embeds `_build_relation_index` (with `_index_chain` and
`_merge_relation_index_from_mapping` inlined as the candidate stream). -/
def build_relation_index (lp : LinkedProject) (workspace_root : Option String) :
    List (RelKey × RelIndexEntry) :=
  (relation_candidates lp).foldl (relIndexStep workspace_root) []

/-- Embeds `_get_linked_project`. -/
def get_linked_project (cached_result : Option CachedCompilation) : Option LinkedProject :=
  match cached_result with
  | Option.none => Option.none
  | some c =>
    match c.result with
    | Option.none => Option.none
    | some r => r.linked_project

/-- One entry of the `get_codes` result. -/
structure CodesEntry where
  code : String
  usageCount : Nat
  ontologyDefined : Bool
  occurrences : List Occ
deriving DecidableEq, Repr

/-- The `get_codes` result envelope. -/
structure CodesPayload where
  success : Bool
  error : Option String
  codes : List CodesEntry
deriving DecidableEq, Repr

/-- The normalization pass of `get_codes` over the raw usage mapping. -/
def codeUsageNormalized (raw_usage : List (String × List Item)) : List (String × List Item) :=
  raw_usage.foldl (fun m (p : String × List Item) => assocExtend m (normalize_code p.1) p.2) []

/-- The ontology-injection pass of `get_codes`: every ontology key is
present afterwards, defaulting to an empty usage list. -/
def codeUsageWithOntology (usage : List (String × List Item))
    (ontology_index : List (String × OntoNode)) : List (String × List Item) :=
  ontology_index.foldl (fun m (p : String × OntoNode) => assocSetdefault m p.1 []) usage

/-- Embeds `get_codes`. -/
def get_codes (cached_result : Option CachedCompilation) (fs : Fs) :
    Except PyExc CodesPayload :=
  match get_linked_project cached_result with
  | Option.none => .ok ⟨false, some "Projeto não carregado", []⟩
  | some lp =>
    let workspace_root := match cached_result with
      | some c => c.workspace_root
      | Option.none => Option.none
    let template := match cached_result with
      | some c =>
        match c.result with
        | some r => r.template
        | Option.none => Option.none
      | Option.none => Option.none
    let field_specs := match template with
      | some t => t.field_specs
      | Option.none => []
    let maps := item_field_maps field_specs
    let code_usage := codeUsageWithOntology (codeUsageNormalized (get_code_usage lp field_specs))
      lp.ontology_index
    match exceptFold (fun (acc : List CodesEntry × ScanCtx) (p : String × List Item) =>
        match build_code_occurrences p.1 p.2 field_specs workspace_root fs acc.2 maps.1
            maps.2.1 maps.2.2 with
        | .ok (occs, ctx2) =>
          .ok (acc.1 ++ [⟨p.1, p.2.length,
            (assocLookup lp.ontology_index (normalize_code p.1)).isSome, occs⟩], ctx2)
        | .error e => .error e) ([], ⟨[], []⟩) code_usage with
    | .ok (entries, _) => .ok ⟨true, Option.none, entries⟩
    | .error e => .error e

/-- A location dict of a `get_references` entry. -/
structure RefLoc where
  file : String
  line : Option Int
  column : Option Int
deriving DecidableEq, Repr

/-- One entry of the `get_references` result. -/
structure RefEntry where
  bibref : String
  itemCount : Nat
  fields : List (String × String)
  location : Option RefLoc
deriving DecidableEq, Repr

/-- The `get_references` result envelope. -/
structure RefsPayload where
  success : Bool
  error : Option String
  references : List RefEntry
deriving DecidableEq, Repr

/-- Embeds `get_references`.  The success path iterates
`lp.sources.items()`, which raises `AttributeError` when the sources
collection is not a dict. -/
def get_references (cached_result : Option CachedCompilation) : Except PyExc RefsPayload :=
  match get_linked_project cached_result with
  | Option.none => .ok ⟨false, some "Projeto não carregado", []⟩
  | some lp =>
    let workspace_root := match cached_result with
      | some c => c.workspace_root
      | Option.none => Option.none
    match lp.sources with
    | .dict es =>
      .ok ⟨true, Option.none, es.map (fun (p : String × Source) =>
        let src := p.2
        { bibref := src.bibref
          itemCount := src.items.length
          fields := if src.fields.isEmpty then [] else src.fields
          location :=
            match src.location with
            | some loc =>
              some ⟨relativize_path (match loc.file with
                      | some f => f
                      | Option.none => "None") workspace_root,
                loc.line, loc.column⟩
            | Option.none => Option.none })⟩
    | _ => .error (.attributeError "items")

/-- One entry of the `get_relations` result; `frm` and `tgt` stand for the
`from` and `to` dict keys. -/
structure RelationsEntry where
  frm : String
  relation : String
  tgt : String
  location : Option RelLoc
  type : Option String
deriving DecidableEq, Repr

/-- The `get_relations` result envelope. -/
structure RelationsPayload where
  success : Bool
  error : Option String
  relations : List RelationsEntry
deriving DecidableEq, Repr

/-- The module-level cache key `(root_key, id(cached_result), timestamp)`. -/
abbrev ResultCacheKey := String × Nat × Int

/-- The module-level relations result cache `_RELATIONS_CACHE`. -/
abbrev RelCache := List (ResultCacheKey × RelationsPayload)

/-- `_RELATIONS_CACHE_MAX`. -/
def RELATIONS_CACHE_MAX : Nat := 4

/-- Embeds `_relations_cache_key`. -/
def relations_cache_key (cached_result : Option CachedCompilation)
    (workspace_root : Option String) : Option ResultCacheKey :=
  match cached_result with
  | Option.none => Option.none
  | some c =>
    let root := match workspace_root with
      | some r => some r
      | Option.none => c.workspace_root
    let root_key := match root with
      | some r => r
      | Option.none => ""
    match c.timestamp with
    | Option.none => Option.none
    | some ts => some (root_key, c.pyid, ts)

/-- The shared body of `_relations_cache_set` and `_annotations_cache_set`
(the two sources are textually identical up to the cache touched): insert,
then, when over capacity, drop the oldest entry unless it is the key just
inserted. -/
def result_cache_set {α : Type} (maxSize : Nat) (cache : List (ResultCacheKey × α))
    (key : Option ResultCacheKey) (value : α) : List (ResultCacheKey × α) :=
  match key with
  | Option.none => cache
  | some k =>
    if (assocUpdate cache k value).length > maxSize then
      match assocUpdate cache k value with
      | [] => assocUpdate cache k value
      | (k0, v0) :: rest => if k0 ≠ k then rest else (k0, v0) :: rest
    else assocUpdate cache k value

/-- Embeds `_relations_cache_set`. -/
def relations_cache_set (cache : RelCache) (key : Option ResultCacheKey)
    (value : RelationsPayload) : RelCache :=
  result_cache_set RELATIONS_CACHE_MAX cache key value

/-- Embeds `get_relations` (the module cache passed and returned
explicitly). -/
def get_relations (cached_result : Option CachedCompilation) (relCache : RelCache) :
    RelationsPayload × RelCache :=
  match get_linked_project cached_result with
  | Option.none => (⟨false, some "Projeto não carregado", []⟩, relCache)
  | some lp =>
    let workspace_root := match cached_result with
      | some c => c.workspace_root
      | Option.none => Option.none
    let cache_key := relations_cache_key cached_result workspace_root
    let cachedHit := match cache_key with
      | some k => assocLookup relCache k
      | Option.none => Option.none
    match cachedHit with
    | some payload => (payload, relCache)
    | Option.none =>
      let relation_index := build_relation_index lp workspace_root
      let relations := lp.all_triples.map (fun (t : String × String × String) =>
        match assocLookup relation_index (normalize_triple t.1 t.2.1 t.2.2) with
        | some e => ⟨t.1, t.2.1, t.2.2, e.location, e.type⟩
        | Option.none => ⟨t.1, t.2.1, t.2.2, Option.none, Option.none⟩)
      let result : RelationsPayload := ⟨true, Option.none, relations⟩
      (result, relations_cache_set relCache cache_key result)

end Explorer

namespace Annot

/-! ## ontology_annotations.py -/

/-- Embeds `_normalize_code` of ontology_annotations.py:
`" ".join(str(value).strip().split()).lower()` (callers pass `str(value)`
through `pyStr` where the value is not already a string). -/
def normalize_code (value : String) : String :=
  pyLower (String.mk (pyJoinSpaceData (pySplitData (pyStripData value.data))))

/-- `_iter_string_values` of ontology_annotations.py is textually identical
to the explorer copy. -/
def iter_string_values (v : PyVal) : List String :=
  Explorer.iter_string_values v

/-- `_iter_chain_values` of ontology_annotations.py is textually identical
to the explorer copy. -/
def iter_chain_values (v : PyVal) : List PyVal :=
  Explorer.iter_chain_values v

/-- `_chain_nodes` of ontology_annotations.py is textually identical to the
explorer copy. -/
def chain_nodes (chain : PyVal) : List String :=
  Explorer.chain_nodes chain

/-- Embeds `_iter_value_locations`: pairs of values and locations up to the
shorter length (empty when either is falsy). -/
def iter_value_locations (values : List String) (locations : List PyVal) :
    List (String × PyVal) :=
  if values.isEmpty || locations.isEmpty then []
  else values.zip locations

/-- Embeds `_select_code_location_values`. -/
def select_code_location_values (field_name : String) (locs : List PyVal) (item : Item)
    (extra_fields : List (String × PyVal)) (target : String) : String × List String :=
  let field_key := pyLower field_name
  if field_key ≠ "code" && field_key ≠ "codes" then
    (field_name, iter_string_values ((assocLookup extra_fields field_name).getD .none))
  else
    let codes_list := item.codes
    let candidates :=
      (if !codes_list.isEmpty then [(field_name, codes_list)] else []) ++
      (extra_fields.filterMap (fun (p : String × PyVal) =>
        let values := iter_string_values p.2
        if !values.isEmpty then some (p.1, values) else Option.none))
    let matched := candidates.filter (fun c => c.2.length = locs.length)
    if !matched.isEmpty then
      let byTarget :=
        if !target.isEmpty then
          matched.find? (fun c => c.2.any (fun val => normalize_code val = target))
        else Option.none
      match byTarget with
      | some c => c
      | Option.none =>
        match matched.find? (fun c => pyLower c.1 = "code" || pyLower c.1 = "codes") with
        | some c => c
        | Option.none => matched.headD (field_name, [])
    else (field_name, [])

/-- Embeds `_iter_chain_code_locations`: zipped (node, location) pairs when
the chain exposes `nodes` and `node_locations` of equal non-zero length. -/
def iter_chain_code_locations (chain : PyVal) : List (PyVal × PyVal) :=
  let nodes := match pyGetattrN chain "nodes" with
    | .list xs => xs
    | _ => []
  let locations := match pyGetattrN chain "node_locations" with
    | .list xs => xs
    | _ => []
  if nodes.isEmpty || locations.isEmpty || nodes.length ≠ locations.length then []
  else nodes.zip locations

/-- Embeds `_location_line_column` (locations carry int-or-None
coordinates). -/
def location_line_column (location : PyVal) : Option Int × Option Int :=
  if !pyTruthy location then (Option.none, Option.none)
  else
    match location with
    | .dict es =>
      (Explorer.pyValToIntOpt ((assocLookup es (PyKey.str "line")).getD .none),
       Explorer.pyValToIntOpt ((assocLookup es (PyKey.str "column")).getD .none))
    | v =>
      (Explorer.pyValToIntOpt (pyGetattrN v "line"),
       Explorer.pyValToIntOpt (pyGetattrN v "column"))

/-- Embeds `_chain_contains_code`. -/
def chain_contains_code (chain : PyVal) (code : String) : Bool :=
  let target := normalize_code code
  (match chain with
   | .str s => normalize_code s = target
   | _ => false) ||
  (chain_nodes chain).any (fun node => normalize_code node = target)

/-- Embeds `_field_value_contains_code`. -/
def field_value_contains_code (value : PyVal) (code : String) : Bool :=
  let target := normalize_code code
  (iter_chain_values value).any (fun candidate => chain_contains_code candidate target) ||
  (iter_string_values value).any (fun text => normalize_code text = target)

/-- The merge state of `_merge_code_usage_with_chains`: the usage map and
the per-code set of already-seen item ids. -/
structure MergeState where
  usage : List (String × List Item)
  seen : List (String × List Nat)

/-- Embeds `_add_item_to_usage` (identity-based dedup through `pyid`). -/
def add_item_to_usage (st : MergeState) (code : String) (item : Item) : MergeState :=
  let norm := normalize_code code
  if norm.isEmpty then st
  else
    let bucket := (assocLookup st.usage norm).getD []
    let bucket_seen := (assocLookup st.seen norm).getD []
    if bucket_seen.contains item.pyid then
      { usage := Explorer.assocSetdefault st.usage norm []
        seen := Explorer.assocSetdefault st.seen norm [] }
    else
      { usage := Explorer.assocUpdate (Explorer.assocSetdefault st.usage norm []) norm
          (bucket ++ [item])
        seen := Explorer.assocUpdate (Explorer.assocSetdefault st.seen norm []) norm
          (bucket_seen ++ [item.pyid]) }

/-- The ontology-membership guard of the chain-merge loops. -/
def nodeAdmitted (ontology_index : Option (List (String × OntoNode))) (node : String) : Bool :=
  match ontology_index with
  | Option.none => true
  | some idx => (assocLookup idx (normalize_code node)).isSome

/-- Embeds `_merge_code_usage_with_chains`. -/
def merge_code_usage_with_chains (lp : LinkedProject)
    (ontology_index : Option (List (String × OntoNode))) : List (String × List Item) :=
  let base : MergeState := (lp.code_usage.getD []).foldl
    (fun (st : MergeState) (p : String × List Item) =>
      let norm := normalize_code p.1
      if norm.isEmpty then st
      else
        { usage := Explorer.assocUpdate st.usage norm p.2
          seen := Explorer.assocUpdate st.seen norm (p.2.map Item.pyid) })
    ⟨[], []⟩
  let final := (Explorer.iter_sources lp.sources).foldl (fun st src =>
    src.items.foldl (fun st item =>
      let st2 := item.chains.foldl (fun st chain =>
        (chain_nodes chain).foldl (fun st node =>
          if !nodeAdmitted ontology_index node then st
          else add_item_to_usage st node item) st) st
      item.extra_fields.foldl (fun st (p : String × PyVal) =>
        (iter_chain_values p.2).foldl (fun st candidate =>
          let nodes := chain_nodes candidate
          if nodes.isEmpty then st
          else nodes.foldl (fun st node =>
            if !nodeAdmitted ontology_index node then st
            else add_item_to_usage st node item) st) st) st2) st) base
  final.usage

/-- One occurrence record of the annotations result (the dict carries an
`itemName` in addition to the explorer fields). -/
structure AnnOcc where
  file : String
  itemName : String
  line : Option Int
  column : Option Int
  context : String
  field : String
deriving DecidableEq, Repr

/-- One annotation entry of the result. -/
structure Annotation where
  code : String
  ontologyDefined : Bool
  ontologyFile : Option String
  ontologyLine : Option Int
  occurrences : List AnnOcc
deriving DecidableEq, Repr

/-- The `getOntologyAnnotations` result envelope; `annotations = none`
models a payload without the `annotations` key (the error envelopes). -/
structure AnnotationsPayload where
  success : Bool
  error : Option String
  annotations : Option (List Annotation)
deriving DecidableEq, Repr

/-- The module-level cache `_ANNOTATIONS_CACHE`. -/
abbrev AnnCache := List (Explorer.ResultCacheKey × AnnotationsPayload)

/-- `_ANNOTATIONS_CACHE_MAX`. -/
def ANNOTATIONS_CACHE_MAX : Nat := 4

/-- Embeds `_annotations_cache_key` (textually identical to
`_relations_cache_key`). -/
def annotations_cache_key (cached_result : Option CachedCompilation)
    (workspace_root : Option String) : Option Explorer.ResultCacheKey :=
  Explorer.relations_cache_key cached_result workspace_root

/-- Embeds `_annotations_cache_set` (textually identical to
`_relations_cache_set` up to the cache touched). -/
def annotations_cache_set (cache : AnnCache) (key : Option Explorer.ResultCacheKey)
    (value : AnnotationsPayload) : AnnCache :=
  Explorer.result_cache_set ANNOTATIONS_CACHE_MAX cache key value

/-- Embeds `_normalize_path_value`. -/
def normalize_path_value (value : String) : String :=
  if value.isEmpty then ""
  else
    match Explorer.normalize_file_path value with
    | some p => pathAsPosix p
    | Option.none => pathAsPosix value

/-- Embeds `_file_matches`: mutual substring containment of the normalized
paths. -/
def file_matches (active_file relative_file : String) : Bool :=
  let normalized_active := normalize_path_value active_file
  let normalized_relative := normalize_path_value relative_file
  containsSub normalized_relative.data normalized_active.data
    || containsSub normalized_active.data normalized_relative.data

/-- Embeds `_filter_annotations_by_file`: a fresh payload whose entries
keep every field but restrict the occurrence lists to the active file. -/
def filter_annotations_by_file (payload : AnnotationsPayload) (active_file : String) :
    AnnotationsPayload :=
  match payload.annotations with
  | Option.none => payload
  | some annotations =>
    let filtered := annotations.map (fun annotation =>
      { annotation with occurrences := annotation.occurrences.filter (fun occ =>
          !occ.file.isEmpty && file_matches active_file occ.file) })
    ⟨true, Option.none, some filtered⟩

/-- Embeds `_chain_to_string` of ontology_annotations.py (tuples of length
at least 3 render as the dash-joined triple, other values as `str()`). -/
def chain_to_string (chain : PyVal) : String :=
  match chain with
  | .str s => s
  | .list xs =>
    if xs.length ≥ 3 then
      pyStr (xs.getD 0 .none) ++ "-" ++ pyStr (xs.getD 1 .none) ++ "-" ++ pyStr (xs.getD 2 .none)
    else pyStr (.list xs)
  | v => pyStr v

/-- Embeds `_extract_chain_location`; the typed fallback location enters as
a duck-typed value. -/
def extract_chain_location (chain : PyVal) (fallback_location : PyVal) : PyVal :=
  let tupleLoc := match chain with
    | .list xs =>
      if xs.length > 3 then
        let loc := xs.getD 3 .none
        if pyTruthy loc && (pyGetattr loc "line").isSome then some loc else Option.none
      else Option.none
    | _ => Option.none
  match tupleLoc with
  | some loc => loc
  | Option.none =>
    let chain_loc := pyGetattrN chain "location"
    if pyTruthy chain_loc then chain_loc else fallback_location

/-- Embeds `_dedupe_occurrences`: exact-duplicate removal keyed on
(file, line, column, context, lower-cased field). -/
def dedupe_occurrences (occurrences : List AnnOcc) : List AnnOcc :=
  (occurrences.foldl (fun (acc : List (String × Option Int × Option Int × String × String) ×
      List AnnOcc) occ =>
    let key := (occ.file, occ.line, occ.column, occ.context, pyLower occ.field)
    if acc.1.contains key then acc
    else (acc.1 ++ [key], acc.2 ++ [occ])) ([], [])).2

end Annot

namespace Annot

/-- The dedup key used inside `_find_code_in_item`:
(file, line, column, lower-cased field, context). -/
abbrev FindKey := String × Option Int × Option Int × String × String

/-- The accumulating state of `_find_code_in_item`. -/
structure FindState where
  seen : List FindKey
  occs : List AnnOcc

/-- Guarded append with the `_find_code_in_item` key. -/
def pushFind (st : FindState) (key : FindKey) (o : AnnOcc) : FindState :=
  if st.seen.contains key then st
  else ⟨st.seen ++ [key], st.occs ++ [o]⟩

/-- Embeds `_find_code_in_item`. -/
def find_code_in_item (code : String) (item : Item) (file_path : String)
    (item_name : String) : List AnnOcc :=
  let target := normalize_code code
  let location := item.location
  let item_line : Option Int := match location with
    | some l => l.line
    | Option.none => some 1
  let item_column : Option Int := match location with
    | some l => l.column
    | Option.none => some 1
  let extra_fields := item.extra_fields
  let st0 : FindState := ⟨[], []⟩
  let st1 := item.code_locations.foldl (fun st (p : String × List PyVal) =>
    let (field_name, locs) := p
    let sel := select_code_location_values field_name locs item extra_fields target
    if sel.2.isEmpty then st
    else (iter_value_locations sel.2 locs).foldl (fun st (q : String × PyVal) =>
      if normalize_code q.1 ≠ target then st
      else
        match location_line_column q.2 with
        | (some line, some column) =>
          pushFind st (file_path, some line, some column, pyLower sel.1, "code")
            ⟨file_path, item_name, some line, some column, "code", sel.1⟩
        | _ => st) st) st0
  let st2 := item.chains.foldl (fun st chain =>
    let field_name := Explorer.chainFieldName chain
    (iter_chain_code_locations chain).foldl (fun st (q : PyVal × PyVal) =>
      if normalize_code (pyStr q.1) ≠ target then st
      else
        match location_line_column q.2 with
        | (some line, some column) =>
          pushFind st (file_path, some line, some column, pyLower field_name, "chain")
            ⟨file_path, item_name, some line, some column, "chain", field_name⟩
        | _ => st) st) st1
  let st3 := extra_fields.foldl (fun st (p : String × PyVal) =>
    (iter_chain_values p.2).foldl (fun st candidate =>
      (iter_chain_code_locations candidate).foldl (fun st (q : PyVal × PyVal) =>
        if normalize_code (pyStr q.1) ≠ target then st
        else
          match location_line_column q.2 with
          | (some line, some column) =>
            pushFind st (file_path, some line, some column, pyLower p.1, "chain")
              ⟨file_path, item_name, some line, some column, "chain", p.1⟩
          | _ => st) st) st) st2
  if !st3.occs.isEmpty then st3.occs
  else
    let fb1 := extra_fields.foldl (fun occs (p : String × PyVal) =>
      if !pyTruthy p.2 then occs
      else
        let context := if containsSub (pyUpper p.1).data "CODE".data then "code" else "chain"
        if field_value_contains_code p.2 code then
          occs ++ [⟨file_path, item_name, item_line, item_column, context, p.1⟩]
        else occs) ([] : List AnnOcc)
    item.chains.foldl (fun occs chain =>
      if chain_contains_code chain code then
        let fallback := match location with
          | some l => Explorer.locToPyVal l
          | Option.none => .none
        let chain_location := extract_chain_location chain fallback
        let chain_line : Option Int :=
          if pyTruthy chain_location then
            match pyGetattr chain_location "line" with
            | some v => Explorer.pyValToIntOpt v
            | Option.none => item_line
          else item_line
        let chain_column : Option Int :=
          if pyTruthy chain_location then
            match pyGetattr chain_location "column" with
            | some v => Explorer.pyValToIntOpt v
            | Option.none => item_column
          else item_column
        occs ++ [⟨file_path, item_name, chain_line, chain_column, "chain", "CHAIN"⟩]
      else occs) fb1

/-- The `str(Path(p).relative_to(root))` attempt of the annotations module
(falling back to the raw path on `ValueError`). -/
def relativeToOrSelf (p : String) (root : Option String) : String :=
  match root with
  | some r =>
    match pathRelativeTo p r with
    | some rel => rel
    | Option.none => p
  | Option.none => p

/-- The item-name resolution
`getattr(item, "name", None) or getattr(item, "id", "unknown")`. -/
def itemNameOf (item : Item) : String :=
  match item.name with
  | some n => if !n.isEmpty then n else (item.id.getD "unknown")
  | Option.none => item.id.getD "unknown"

/-- Embeds `_build_occurrences` (always called with `active_file=None` by
the source, but the filter parameter is embedded faithfully). -/
def build_occurrences (code : String) (items : List Item)
    (workspace_root : Option String) (active_file : Option String) : List AnnOcc :=
  items.foldl (fun occurrences item =>
    let location0 := item.location
    let location :=
      if !Explorer.locFileTruthy location0 then
        match item.source with
        | some src => src.location
        | Option.none => location0
      else location0
    match location with
    | Option.none => occurrences
    | some loc =>
      match loc.file with
      | Option.none => occurrences
      | some file_path =>
        if file_path.isEmpty then occurrences
        else
          let relative_file := relativeToOrSelf file_path workspace_root
          let skipByFilter := match active_file with
            | some af =>
              if af.isEmpty then false
              else
                let na := pathAsPosix af
                let nr := pathAsPosix relative_file
                !(containsSub nr.data na.data || containsSub na.data nr.data)
            | Option.none => false
          if skipByFilter then occurrences
          else occurrences ++ find_code_in_item code item relative_file (itemNameOf item))
    []

/-- Sorted insertion by `code` (the stable `annotations.sort(key=...)`). -/
def insertByCode (a : Annotation) : List Annotation → List Annotation
  | [] => [a]
  | b :: rest => if b.code ≤ a.code then b :: insertByCode a rest else a :: b :: rest

/-- Stable sort of annotations by code. -/
def sortAnnotations (xs : List Annotation) : List Annotation :=
  xs.foldl (fun acc a => insertByCode a acc) []

/-- The build branch of `get_ontology_annotations` for one ontology
concept. -/
def buildAnnotation (code : String) (onto_node : OntoNode)
    (code_usage : List (String × List Item)) (effective_root : Option String) : Annotation :=
  let ontology_file : Option String := match onto_node.location with
    | some loc =>
      match loc.file with
      | some f => some (relativeToOrSelf f effective_root)
      | Option.none => Option.none
    | Option.none => Option.none
  let ontology_line : Option Int := match onto_node.location with
    | some loc => loc.line
    | Option.none => Option.none
  let items := (assocLookup code_usage code).getD []
  let occurrences := dedupe_occurrences
    (build_occurrences code items effective_root Option.none)
  { code := code
    ontologyDefined := true
    ontologyFile := match ontology_file with
      | some f => if f.isEmpty then Option.none else some f
      | Option.none => Option.none
    ontologyLine := match ontology_line with
      | some n => if n = 0 then Option.none else some n
      | Option.none => Option.none
    occurrences := occurrences }

/-- Embeds `get_ontology_annotations` (the module cache passed and
returned explicitly). -/
def get_ontology_annotations (cached_result : Option CachedCompilation)
    (workspace_root : Option String) (active_file : Option String)
    (cache : AnnCache) : AnnotationsPayload × AnnCache :=
  match cached_result with
  | Option.none => (⟨false, some "Workspace não compilado", Option.none⟩, cache)
  | some c =>
    match c.result with
    | Option.none => (⟨false, some "Resultado de compilação inválido", Option.none⟩, cache)
    | some r =>
      match r.linked_project with
      | Option.none => (⟨false, some "LinkedProject não disponível", Option.none⟩, cache)
      | some lp =>
        let effective_root := match workspace_root with
          | some w => some w
          | Option.none => c.workspace_root
        let cache_key := annotations_cache_key cached_result effective_root
        let cachedHit := match cache_key with
          | some k => assocLookup cache k
          | Option.none => Option.none
        let activeTruthy := match active_file with
          | some af => !af.isEmpty
          | Option.none => false
        match cachedHit with
        | some cached_payload =>
          (if activeTruthy then
            filter_annotations_by_file cached_payload ((active_file).getD "")
          else cached_payload, cache)
        | Option.none =>
          let ontology_index := lp.ontology_index
          let code_usage := merge_code_usage_with_chains lp (some ontology_index)
          if ontology_index.isEmpty then
            let result : AnnotationsPayload := ⟨true, Option.none, some []⟩
            let cache2 := annotations_cache_set cache cache_key result
            (if activeTruthy then
              filter_annotations_by_file result ((active_file).getD "")
            else result, cache2)
          else
            let annotations := sortAnnotations (ontology_index.map
              (fun (p : String × OntoNode) =>
                buildAnnotation p.1 p.2 code_usage effective_root))
            let result : AnnotationsPayload := ⟨true, Option.none, some annotations⟩
            let cache2 := annotations_cache_set cache cache_key result
            (if activeTruthy then
              filter_annotations_by_file result ((active_file).getD "")
            else result, cache2)

end Annot

namespace Ren

/-! ## rename.py (the pattern builder relevant to rename safety) -/

/-- Embeds `_normalize_bibref`. -/
def normalize_bibref (bibref : String) : String :=
  pyLower (pyStrip (String.mk (bibref.data.dropWhile (· = '@'))))

/-- Embeds `_normalize_code` of rename.py (textually identical to the
ontology_annotations copy, without the `str()` coercion). -/
def normalize_code (code : String) : String :=
  pyLower (String.mk (pyJoinSpaceData (pySplitData (pyStripData code.data))))

/-- The character class `[\w.-]` of the rename pattern guards. -/
def isWordDotDash (c : Char) : Bool :=
  Explorer.isWordChar c || c = '.' || c = '-'

/-- Case-insensitive literal match of `pat` at offset `i` of `line`
(re.IGNORECASE over the ASCII model). -/
def ciMatchAt (pat line : List Char) (i : Nat) : Bool :=
  pyLowerData ((line.drop i).take pat.length) = pyLowerData pat

/-- The lookbehind `(?<![\w.-])` at offset `i`. -/
def boundaryOkBefore (line : List Char) (i : Nat) : Bool :=
  match i with
  | 0 => true
  | Nat.succ j =>
    match line.get? j with
    | some c => !isWordDotDash c
    | Option.none => true

/-- The lookahead `(?![\w.-])` at offset `j`. -/
def boundaryOkAfter (line : List Char) (j : Nat) : Bool :=
  match line.get? j with
  | some c => !isWordDotDash c
  | Option.none => true

/-- The compiled pattern of `_build_code_pattern`: the literal
alternatives between the two boundary guards. -/
structure CodePattern where
  alternatives : List (List Char)
deriving DecidableEq, Repr

/-- Embeds `_build_code_pattern`:
`(?<![\w.-])(?:raw|key)(?![\w.-])` with IGNORECASE (a single alternative
when raw and key coincide). -/
def build_code_pattern (old_code_raw old_code_key : String) : CodePattern :=
  if old_code_raw ≠ old_code_key then ⟨[old_code_raw.data, old_code_key.data]⟩
  else ⟨[old_code_raw.data]⟩

/-- Matching semantics of the compiled rename pattern at offset `i`: the
lookbehind holds and some alternative matches case-insensitively with the
lookahead holding after it. -/
def patternMatchesAt (p : CodePattern) (line : List Char) (i : Nat) : Bool :=
  boundaryOkBefore line i &&
  p.alternatives.any (fun alt => ciMatchAt alt line i && boundaryOkAfter line (i + alt.length))

end Ren

/-! ## Groundwork lemmas on the character model -/

theorem charOfNat_toNat {n : Nat} (h : n < 55296) : (Char.ofNat n).toNat = n := by
  have hv : n.isValidChar := Or.inl h
  rw [Char.ofNat, dif_pos hv]
  simp [Char.ofNatAux, Char.toNat, UInt32.ofNat', UInt32.toNat]

theorem pyIsSpace_false_of_ge (c : Char) (h : 65 ≤ c.toNat) : pyIsSpace c = false := by
  unfold pyIsSpace
  simp only [Bool.or_eq_false_iff, decide_eq_false_iff_not]
  refine ⟨⟨⟨⟨⟨?_, ?_⟩, ?_⟩, ?_⟩, ?_⟩, ?_⟩ <;>
    · intro he
      subst he
      exact absurd h (by decide)

theorem pyToLowerChar_toNat_of_upper (c : Char) (h : ('A' ≤ c && c ≤ 'Z') = true) :
    (pyToLowerChar c).toNat = c.toNat + 32 := by
  unfold pyToLowerChar
  rw [if_pos h]
  simp only [Bool.and_eq_true, decide_eq_true_eq] at h
  have h2 : c.toNat ≤ 90 := h.2
  exact charOfNat_toNat (by omega)

theorem toNat_ge_65_of_upper (c : Char) (h : ('A' ≤ c && c ≤ 'Z') = true) :
    65 ≤ c.toNat ∧ c.toNat ≤ 90 := by
  simp only [Bool.and_eq_true, decide_eq_true_eq] at h
  exact ⟨h.1, h.2⟩

theorem pyIsSpace_pyToLowerChar (c : Char) : pyIsSpace (pyToLowerChar c) = pyIsSpace c := by
  by_cases h : ('A' ≤ c && c ≤ 'Z') = true
  · have h1 := toNat_ge_65_of_upper c h
    have h2 := pyToLowerChar_toNat_of_upper c h
    rw [pyIsSpace_false_of_ge _ (by omega), pyIsSpace_false_of_ge _ (by omega)]
  · unfold pyToLowerChar
    rw [if_neg h]

theorem pyToLowerChar_eq_self_of_not (c : Char) (h : ¬ ('A' ≤ c && c ≤ 'Z') = true) :
    pyToLowerChar c = c := by
  unfold pyToLowerChar
  rw [if_neg h]

theorem pyToLowerChar_idem (c : Char) : pyToLowerChar (pyToLowerChar c) = pyToLowerChar c := by
  by_cases h : ('A' ≤ c && c ≤ 'Z') = true
  · apply pyToLowerChar_eq_self_of_not
    intro hcon
    have h1 := toNat_ge_65_of_upper c h
    have h2 := pyToLowerChar_toNat_of_upper c h
    have h3 := toNat_ge_65_of_upper _ hcon
    omega
  · rw [pyToLowerChar_eq_self_of_not c h, pyToLowerChar_eq_self_of_not c h]

theorem pyIsSpace_comp_pyToLowerChar : (pyIsSpace ∘ pyToLowerChar) = pyIsSpace :=
  funext pyIsSpace_pyToLowerChar

theorem pyLowerData_idem (l : List Char) : pyLowerData (pyLowerData l) = pyLowerData l := by
  unfold pyLowerData
  rw [List.map_map]
  exact List.map_congr_left (fun c _ => pyToLowerChar_idem c)

theorem dropWhile_pyLowerData (l : List Char) :
    (pyLowerData l).dropWhile pyIsSpace = pyLowerData (l.dropWhile pyIsSpace) := by
  unfold pyLowerData
  rw [List.dropWhile_map, pyIsSpace_comp_pyToLowerChar]

theorem pyStripData_pyLowerData (l : List Char) :
    pyStripData (pyLowerData l) = pyLowerData (pyStripData l) := by
  unfold pyStripData
  rw [dropWhile_pyLowerData]
  show ((pyLowerData (l.dropWhile pyIsSpace)).reverse.dropWhile pyIsSpace).reverse = _
  unfold pyLowerData
  rw [← List.map_reverse, List.dropWhile_map, pyIsSpace_comp_pyToLowerChar, ← List.map_reverse]

theorem pyStripData_as_rdropWhile (l : List Char) :
    pyStripData l = List.rdropWhile pyIsSpace (l.dropWhile pyIsSpace) := rfl

theorem dropWhile_prefix_self {p : Char → Bool} (x t : List Char)
    (h : List.dropWhile p (x ++ t) = x ++ t) : List.dropWhile p x = x := by
  cases x with
  | nil => rfl
  | cons a xs =>
    rw [List.cons_append, List.dropWhile_cons] at h
    by_cases ha : p a = true
    · rw [if_pos ha] at h
      have hlen := congrArg List.length h
      have hle := (List.dropWhile_sublist (l := xs ++ t) p).length_le
      simp only [List.length_cons, List.length_append] at hlen hle
      omega
    · rw [List.dropWhile_cons, if_neg ha]

theorem dropWhile_rdropWhile_self (l : List Char) :
    List.dropWhile pyIsSpace (List.rdropWhile pyIsSpace (l.dropWhile pyIsSpace)) =
      List.rdropWhile pyIsSpace (l.dropWhile pyIsSpace) := by
  obtain ⟨t, ht⟩ := List.rdropWhile_prefix pyIsSpace (l.dropWhile pyIsSpace)
  apply dropWhile_prefix_self _ t
  rw [ht]
  exact List.dropWhile_idempotent pyIsSpace l

theorem pyStripData_idem (l : List Char) : pyStripData (pyStripData l) = pyStripData l := by
  rw [pyStripData_as_rdropWhile, pyStripData_as_rdropWhile, dropWhile_rdropWhile_self,
    List.rdropWhile_idempotent]

/-! ## Word-splitting lemmas for the whitespace-collapsing normalizer -/

theorem pySplitAux_nil (acc : List Char) :
    pySplitAux [] acc = if acc.isEmpty then [] else [acc.reverse] := rfl

theorem pySplitAux_cons (c : Char) (rest acc : List Char) :
    pySplitAux (c :: rest) acc =
      if pyIsSpace c then
        if acc.isEmpty then pySplitAux rest [] else acc.reverse :: pySplitAux rest []
      else pySplitAux rest (c :: acc) := rfl

theorem pySplitAux_all_space (sp : List Char) (acc : List Char)
    (h : ∀ c ∈ sp, pyIsSpace c = true) :
    pySplitAux sp acc = if acc.isEmpty then [] else [acc.reverse] := by
  induction sp generalizing acc with
  | nil => rfl
  | cons c rest ih =>
    have hc := h c (List.mem_cons_self c rest)
    have hrest : ∀ x ∈ rest, pyIsSpace x = true := fun x hx => h x (List.mem_cons_of_mem c hx)
    rw [pySplitAux_cons, if_pos hc, ih [] hrest]
    by_cases ha : acc.isEmpty
    · rw [if_pos ha, if_pos ha]
      rfl
    · rw [if_neg ha, if_neg ha]
      rfl

theorem pySplitAux_append_spaces (l sp : List Char) (acc : List Char)
    (h : ∀ c ∈ sp, pyIsSpace c = true) :
    pySplitAux (l ++ sp) acc = pySplitAux l acc := by
  induction l generalizing acc with
  | nil =>
    rw [List.nil_append, pySplitAux_all_space sp acc h, pySplitAux_nil]
  | cons c rest ih =>
    rw [List.cons_append, pySplitAux_cons, pySplitAux_cons]
    by_cases hc : pyIsSpace c = true
    · rw [if_pos hc, if_pos hc, ih []]
    · rw [if_neg hc, if_neg hc, ih (c :: acc)]

theorem pySplitAux_dropWhile (l : List Char) :
    pySplitAux (l.dropWhile pyIsSpace) [] = pySplitAux l [] := by
  induction l with
  | nil => rfl
  | cons c rest ih =>
    rw [List.dropWhile_cons]
    by_cases hc : pyIsSpace c = true
    · rw [if_pos hc, ih, pySplitAux_cons, if_pos hc]
      rfl
    · rw [if_neg hc]

theorem pySplitData_stripData (l : List Char) :
    pySplitData (pyStripData l) = pySplitData l := by
  unfold pySplitData
  rw [pyStripData_as_rdropWhile]
  obtain ⟨t, ht⟩ := List.rdropWhile_prefix pyIsSpace (l.dropWhile pyIsSpace)
  have h2 : List.rdropWhile pyIsSpace (l.dropWhile pyIsSpace) ++
      List.rtakeWhile pyIsSpace (l.dropWhile pyIsSpace) = l.dropWhile pyIsSpace := by
    rw [List.rdropWhile, List.rtakeWhile, ← List.reverse_append,
      List.takeWhile_append_dropWhile, List.reverse_reverse]
  have ht2 : t = List.rtakeWhile pyIsSpace (l.dropWhile pyIsSpace) :=
    List.append_cancel_left (ht.trans h2.symm)
  have htsp : ∀ c ∈ t, pyIsSpace c = true := by
    intro c hc
    rw [ht2] at hc
    exact List.mem_rtakeWhile_imp hc
  calc pySplitAux (List.rdropWhile pyIsSpace (l.dropWhile pyIsSpace)) []
      = pySplitAux (List.rdropWhile pyIsSpace (l.dropWhile pyIsSpace) ++ t) [] :=
        (pySplitAux_append_spaces _ t [] htsp).symm
    _ = pySplitAux (l.dropWhile pyIsSpace) [] := by rw [ht]
    _ = pySplitAux l [] := pySplitAux_dropWhile l

theorem pySplitAux_word (w : List Char) (rest : List Char) (acc : List Char)
    (h : ∀ c ∈ w, pyIsSpace c = false) :
    pySplitAux (w ++ rest) acc = pySplitAux rest (w.reverse ++ acc) := by
  induction w generalizing acc with
  | nil => simp
  | cons c w2 ih =>
    have hc := h c (List.mem_cons_self c w2)
    rw [List.cons_append, pySplitAux_cons, if_neg (by rw [hc]; exact Bool.false_ne_true)]
    rw [ih (c :: acc) (fun x hx => h x (List.mem_cons_of_mem c hx))]
    rw [List.reverse_cons, List.append_assoc, List.singleton_append]

/-- The goodness invariant of split output words: non-empty and
space-free. -/
def GoodWord (w : List Char) : Prop :=
  w ≠ [] ∧ ∀ c ∈ w, pyIsSpace c = false

theorem isEmpty_reverse_false {w : List Char} (h : w ≠ []) : w.reverse.isEmpty = false := by
  cases hrev : w.reverse with
  | nil => exact absurd (List.reverse_eq_nil_iff.mp hrev) h
  | cons a b => rfl

theorem pySplitData_join (ws : List (List Char)) (h : ∀ w ∈ ws, GoodWord w) :
    pySplitData (pyJoinSpaceData ws) = ws := by
  induction ws with
  | nil => rfl
  | cons w ws2 ih =>
    have hw := h w (List.mem_cons_self w ws2)
    have hws2 : ∀ x ∈ ws2, GoodWord x := fun x hx => h x (List.mem_cons_of_mem w hx)
    cases ws2 with
    | nil =>
      show pySplitAux (pyJoinSpaceData [w]) [] = [w]
      have hj : pyJoinSpaceData [w] = w := rfl
      have hword := pySplitAux_word w [] [] hw.2
      rw [List.append_nil, List.append_nil] at hword
      rw [hj, hword, pySplitAux_nil,
        if_neg (by rw [isEmpty_reverse_false hw.1]; exact Bool.false_ne_true),
        List.reverse_reverse]
    | cons w2 ws3 =>
      show pySplitAux (pyJoinSpaceData (w :: w2 :: ws3)) [] = w :: w2 :: ws3
      have hjoin : pyJoinSpaceData (w :: w2 :: ws3) = w ++ ' ' :: pyJoinSpaceData (w2 :: ws3) :=
        rfl
      rw [hjoin, pySplitAux_word w _ [] hw.2, List.append_nil, pySplitAux_cons,
        if_pos (show pyIsSpace ' ' = true from rfl),
        if_neg (by rw [isEmpty_reverse_false hw.1]; exact Bool.false_ne_true),
        List.reverse_reverse]
      exact congrArg (w :: ·) (ih hws2)

theorem pySplitAux_good (l : List Char) (acc : List Char)
    (hacc : ∀ c ∈ acc, pyIsSpace c = false) :
    ∀ w ∈ pySplitAux l acc, GoodWord w := by
  induction l generalizing acc with
  | nil =>
    intro w hw
    rw [pySplitAux_nil] at hw
    by_cases ha : acc.isEmpty
    · rw [if_pos ha] at hw
      exact absurd hw (List.not_mem_nil w)
    · rw [if_neg ha] at hw
      rw [List.mem_singleton] at hw
      subst hw
      refine ⟨fun hrev => ha ?_, fun c hc => hacc c (List.mem_reverse.mp hc)⟩
      rw [List.reverse_eq_nil_iff] at hrev
      rw [hrev]
      rfl
  | cons c rest ih =>
    intro w hw
    rw [pySplitAux_cons] at hw
    by_cases hc : pyIsSpace c = true
    · rw [if_pos hc] at hw
      by_cases ha : acc.isEmpty
      · rw [if_pos ha] at hw
        exact ih [] (fun x hx => absurd hx (List.not_mem_nil x)) w hw
      · rw [if_neg ha] at hw
        rw [List.mem_cons] at hw
        cases hw with
        | inl hw =>
          subst hw
          refine ⟨fun hrev => ha ?_, fun x hx => hacc x (List.mem_reverse.mp hx)⟩
          rw [List.reverse_eq_nil_iff] at hrev
          rw [hrev]
          rfl
        | inr hw =>
          exact ih [] (fun x hx => absurd hx (List.not_mem_nil x)) w hw
    · rw [if_neg hc] at hw
      rw [Bool.not_eq_true] at hc
      refine ih (c :: acc) ?_ w hw
      intro x hx
      rw [List.mem_cons] at hx
      cases hx with
      | inl h1 => rw [h1]; exact hc
      | inr h2 => exact hacc x h2

theorem isEmpty_pyLowerData (acc : List Char) : (pyLowerData acc).isEmpty = acc.isEmpty := by
  cases acc <;> rfl

theorem pySplitAux_map_lower (l : List Char) (acc : List Char) :
    pySplitAux (pyLowerData l) (pyLowerData acc) = (pySplitAux l acc).map pyLowerData := by
  induction l generalizing acc with
  | nil =>
    rw [show pyLowerData [] = [] from rfl, pySplitAux_nil, pySplitAux_nil, isEmpty_pyLowerData]
    by_cases ha : acc.isEmpty
    · rw [if_pos ha, if_pos ha]
      rfl
    · rw [if_neg ha, if_neg ha]
      show [(pyLowerData acc).reverse] = [acc.reverse].map pyLowerData
      simp [pyLowerData]
  | cons c rest ih =>
    rw [show pyLowerData (c :: rest) = pyToLowerChar c :: pyLowerData rest from rfl,
      pySplitAux_cons, pySplitAux_cons, pyIsSpace_pyToLowerChar c]
    by_cases hc : pyIsSpace c = true
    · rw [if_pos hc, if_pos hc, isEmpty_pyLowerData]
      by_cases ha : acc.isEmpty
      · rw [if_pos ha, if_pos ha]
        exact ih []
      · rw [if_neg ha, if_neg ha, List.map_cons]
        rw [show pySplitAux (pyLowerData rest) [] = pySplitAux (pyLowerData rest) (pyLowerData [])
          from rfl, ih []]
        congr 1
        simp [pyLowerData]
    · rw [if_neg hc, if_neg hc]
      rw [show pyToLowerChar c :: pyLowerData acc = pyLowerData (c :: acc) from rfl]
      exact ih (c :: acc)

theorem pyJoinSpaceData_map_lower (ws : List (List Char)) :
    pyJoinSpaceData (ws.map pyLowerData) = pyLowerData (pyJoinSpaceData ws) := by
  induction ws with
  | nil => rfl
  | cons w ws2 ih =>
    cases ws2 with
    | nil => rfl
    | cons w2 ws3 =>
      show pyLowerData w ++ ' ' :: pyJoinSpaceData ((w2 :: ws3).map pyLowerData) = _
      rw [ih]
      show _ = pyLowerData (w ++ ' ' :: pyJoinSpaceData (w2 :: ws3))
      simp only [pyLowerData, List.map_append, List.map_cons]
      rfl

theorem explorer_normalize_idem (x : String) :
    Explorer.normalize_code (Explorer.normalize_code x) = Explorer.normalize_code x := by
  show String.mk (pyLowerData (pyStripData (pyLowerData (pyStripData x.data)))) =
    String.mk (pyLowerData (pyStripData x.data))
  rw [pyStripData_pyLowerData, pyStripData_idem, pyLowerData_idem]

theorem ws_normalize_idem (x : String) :
    Ren.normalize_code (Ren.normalize_code x) = Ren.normalize_code x := by
  show String.mk (pyLowerData (pyJoinSpaceData (pySplitData (pyStripData
      (pyLowerData (pyJoinSpaceData (pySplitData (pyStripData x.data)))))))) =
    String.mk (pyLowerData (pyJoinSpaceData (pySplitData (pyStripData x.data))))
  have hg : ∀ w ∈ pySplitData (pyStripData x.data), GoodWord w :=
    pySplitAux_good (pyStripData x.data) [] (fun c hc => absurd hc (List.not_mem_nil c))
  rw [pySplitData_stripData (pyLowerData (pyJoinSpaceData (pySplitData (pyStripData x.data))))]
  rw [show pySplitData (pyLowerData (pyJoinSpaceData (pySplitData (pyStripData x.data)))) =
      pySplitAux (pyLowerData (pyJoinSpaceData (pySplitData (pyStripData x.data))))
        (pyLowerData []) from rfl]
  rw [pySplitAux_map_lower]
  rw [show pySplitAux (pyJoinSpaceData (pySplitData (pyStripData x.data))) [] =
      pySplitData (pyJoinSpaceData (pySplitData (pyStripData x.data))) from rfl]
  rw [pySplitData_join _ hg, pyJoinSpaceData_map_lower, pyLowerData_idem]

/-- C8.  The code-normalization functions `_normalize_code` are total (the
Lean embeddings are total functions) and idempotent, and collapse case and
surrounding whitespace: this holds both for the explorer variant
(`strip` + `lower`) and for the rename/annotations variant
(whitespace-collapsing `split`/`join` + `lower`); the concrete values of
the claim are computed on both variants. -/
theorem C8_normalize_idempotent_total :
    (∀ x : String, Explorer.normalize_code (Explorer.normalize_code x) =
      Explorer.normalize_code x) ∧
    (∀ x : String, Ren.normalize_code (Ren.normalize_code x) = Ren.normalize_code x) ∧
    Explorer.normalize_code " Proposito " = "proposito" ∧
    Explorer.normalize_code "proposito" = "proposito" ∧
    Ren.normalize_code " Proposito " = "proposito" ∧
    Ren.normalize_code "proposito" = "proposito" :=
  ⟨explorer_normalize_idem, ws_normalize_idem, by decide, by decide, by decide, by decide⟩

/-! ## Rename-pattern boundary safety (C5) -/

theorem getElem?_of_take_drop {line w : List Char} {p : Nat}
    (h : (line.drop p).take w.length = w) {j : Nat} (hj : j < w.length) :
    line.get? (p + j) = w.get? j := by
  have h1 : (line.drop p).get? j = w.get? j := by
    rw [← h, List.get?_take hj]
  rw [← h1, List.get?_drop]

theorem Ren.pattern_no_match_inside (alts : List (List Char)) (w line : List Char) (p i : Nat)
    (hw : ∀ c ∈ w, Ren.isWordDotDash c = true)
    (hocc : (line.drop p).take w.length = w)
    (hlen : ∀ alt ∈ alts, alt.length < w.length)
    (hi : p ≤ i) (hi2 : i < p + w.length) :
    Ren.patternMatchesAt ⟨alts⟩ line i = false := by
  unfold Ren.patternMatchesAt
  by_cases hk : i = p
  · subst hk
    rw [Bool.and_eq_false_iff]
    right
    rw [List.any_eq_false]
    intro alt halt
    intro hconj
    rw [Bool.and_eq_true] at hconj
    have hafter := hconj.2
    unfold Ren.boundaryOkAfter at hafter
    have hjlt : alt.length < w.length := hlen alt halt
    rw [getElem?_of_take_drop hocc hjlt] at hafter
    obtain ⟨c, hc⟩ : ∃ c, w.get? alt.length = some c := by
      rw [List.get?_eq_get hjlt]
      exact ⟨_, rfl⟩
    rw [hc] at hafter
    have hcw : c ∈ w := List.get?_mem hc
    have hafter2 : (!Ren.isWordDotDash c) = true := hafter
    rw [hw c hcw] at hafter2
    exact absurd hafter2 (by decide)
  · have hklt : p < i := Nat.lt_of_le_of_ne hi (fun he => hk he.symm)
    rw [Bool.and_eq_false_iff]
    left
    match i, hklt with
    | Nat.succ j, hklt =>
      show Ren.boundaryOkBefore line (Nat.succ j) = false
      have hj1 : p ≤ j := Nat.lt_succ_iff.mp hklt
      have hj2 : j - p < w.length := by omega
      have hgj : line.get? j = w.get? (j - p) := by
        have := getElem?_of_take_drop hocc hj2
        rwa [Nat.add_sub_cancel' hj1] at this
      show (match line.get? j with
        | some c => !Ren.isWordDotDash c
        | Option.none => true) = false
      rw [hgj]
      obtain ⟨c, hc⟩ : ∃ c, w.get? (j - p) = some c := by
        rw [List.get?_eq_get hj2]
        exact ⟨_, rfl⟩
      rw [hc]
      have hcw : c ∈ w := List.get?_mem hc
      show (!Ren.isWordDotDash c) = false
      rw [hw c hcw]
      rfl

/-- C5.  The rename pattern built by `_build_code_pattern` matches only at
boundary-safe offsets: a match implies the previous character (if any) is
not a word character, dot or hyphen, and the matched alternative is
followed by no such character; consequently the pattern built for old code
"CODE" has no match starting anywhere inside an occurrence of the literal
"CODEC", and the pattern for "proposito" none inside
"proposito_derivado", in any scanned line. -/
theorem C5_rename_pattern_boundary_safe :
    (∀ (raw key : String) (line : List Char) (i : Nat),
      Ren.patternMatchesAt (Ren.build_code_pattern raw key) line i = true →
      Ren.boundaryOkBefore line i = true ∧
      ∃ alt ∈ (Ren.build_code_pattern raw key).alternatives,
        Ren.ciMatchAt alt line i = true ∧ Ren.boundaryOkAfter line (i + alt.length) = true) ∧
    (∀ (line : List Char) (p : Nat), (line.drop p).take 5 = "CODEC".data →
      ∀ i, p ≤ i → i < p + 5 →
        Ren.patternMatchesAt (Ren.build_code_pattern "CODE" "code") line i = false) ∧
    (∀ (line : List Char) (p : Nat), (line.drop p).take 18 = "proposito_derivado".data →
      ∀ i, p ≤ i → i < p + 18 →
        Ren.patternMatchesAt (Ren.build_code_pattern "proposito" "proposito") line i = false) := by
  refine ⟨?_, ?_, ?_⟩
  · intro raw key line i h
    unfold Ren.patternMatchesAt at h
    rw [Bool.and_eq_true] at h
    refine ⟨h.1, ?_⟩
    have h2 := h.2
    rw [List.any_eq_true] at h2
    obtain ⟨alt, halt, hmatch⟩ := h2
    rw [Bool.and_eq_true] at hmatch
    exact ⟨alt, halt, hmatch.1, hmatch.2⟩
  · intro line p hocc i hi hi2
    have hp : Ren.build_code_pattern "CODE" "code" = ⟨["CODE".data, "code".data]⟩ := by decide
    rw [hp]
    exact Ren.pattern_no_match_inside _ "CODEC".data line p i (by decide) hocc (by decide) hi hi2
  · intro line p hocc i hi hi2
    have hp : Ren.build_code_pattern "proposito" "proposito" = ⟨["proposito".data]⟩ := by decide
    rw [hp]
    exact Ren.pattern_no_match_inside _ "proposito_derivado".data line p i (by decide) hocc
      (by decide) hi hi2

/-- Witness for C5: the concrete line "x CODEC y" containing the literal
"CODEC" at offset 2 admits no pattern match at offset 2, and a match of
the same pattern on "a code, b" at offset 2 satisfies the boundary
conditions. -/
theorem C5_witness :
    Ren.patternMatchesAt (Ren.build_code_pattern "CODE" "code") "x CODEC y".data 2 = false ∧
    (Ren.boundaryOkBefore "a code, b".data 2 = true ∧
      ∃ alt ∈ (Ren.build_code_pattern "CODE" "code").alternatives,
        Ren.ciMatchAt alt "a code, b".data 2 = true ∧
        Ren.boundaryOkAfter "a code, b".data (2 + alt.length) = true) :=
  ⟨C5_rename_pattern_boundary_safe.2.1 "x CODEC y".data 2 (by decide) 2 (by decide) (by decide),
   C5_rename_pattern_boundary_safe.1 "CODE" "code" "a code, b".data 2 (by decide)⟩

/-! ## Chain node/relation splitting (C2) -/

/-- Specification-side description of the even-indexed positions
(0, 2, 4, ...) of a list. -/
def evenIndexed {α : Type} (l : List α) : List α :=
  ((l.enum).filter (fun p => p.1 % 2 = 0)).map Prod.snd

theorem enumFrom_filter_even_shift {α : Type} (l : List α) (n : Nat) :
    ((l.enumFrom (n + 2)).filter (fun p => p.1 % 2 = 0)).map Prod.snd =
      ((l.enumFrom n).filter (fun p => p.1 % 2 = 0)).map Prod.snd := by
  induction l generalizing n with
  | nil => rfl
  | cons x t ih =>
    show ((((n + 2), x) :: t.enumFrom (n + 3)).filter (fun p => p.1 % 2 = 0)).map Prod.snd =
      (((n, x) :: t.enumFrom (n + 1)).filter (fun p => p.1 % 2 = 0)).map Prod.snd
    by_cases h : n % 2 = 0
    · rw [List.filter_cons_of_pos (by simp only [decide_eq_true_eq]; omega),
        List.filter_cons_of_pos (by simp only [decide_eq_true_eq]; omega),
        List.map_cons, List.map_cons,
        show n + 3 = (n + 1) + 2 from rfl, ih (n + 1)]
    · rw [List.filter_cons_of_neg (by simp only [decide_eq_true_eq]; omega),
        List.filter_cons_of_neg (by simp only [decide_eq_true_eq]; omega),
        show n + 3 = (n + 1) + 2 from rfl, ih (n + 1)]

theorem sliceStep2_eq_evenIndexed {α : Type} (l : List α) :
    Explorer.sliceStep2 l = evenIndexed l := by
  induction l using Explorer.sliceStep2.induct with
  | case1 => rfl
  | case2 a => rfl
  | case3 a b rest ih =>
    show a :: Explorer.sliceStep2 rest =
      (((0, a) :: (1, b) :: rest.enumFrom 2).filter (fun p => p.1 % 2 = 0)).map Prod.snd
    rw [List.filter_cons_of_pos (by simp), List.filter_cons_of_neg (by simp),
      List.map_cons, ih]
    unfold evenIndexed
    rw [show (2 : Nat) = 0 + 2 from rfl, enumFrom_filter_even_shift]
    rfl

/-- Whether the chain value itself carries a non-empty list-valued
`relations` attribute (the early-return case of `_extract_chain_codes`). -/
def chainRelationsAttr (chain : PyVal) : Bool :=
  match pyGetattr chain "relations" with
  | some (.list rs) => !rs.isEmpty
  | _ => false

theorem extract_odd_branch (chain : PyVal) (spec : FieldSpec)
    (hne : (!spec.relations.isEmpty) = true) (hattr : chainRelationsAttr chain = false)
    (hnonempty : (Explorer.extracted_nodes chain).isEmpty = false) :
    Explorer.extract_chain_codes chain (some spec) =
      if ((Explorer.extracted_nodes chain).length ≥ 3 &&
          (Explorer.extracted_nodes chain).length % 2 = 1) then
        Explorer.sliceStep2 (Explorer.extracted_nodes chain)
      else Explorer.extracted_nodes chain := by
  unfold Explorer.extract_chain_codes
  simp only [Option.map_some', Option.getD_some]
  rw [if_neg (by rw [hnonempty]; exact Bool.false_ne_true), if_pos hne]
  unfold chainRelationsAttr at hattr
  cases hga : pyGetattr chain "relations" with
  | none => rfl
  | some v =>
    cases v with
    | list rs =>
      rw [hga] at hattr
      have hattr2 : (!rs.isEmpty) = false := hattr
      show (if (!rs.isEmpty) = true then Explorer.extracted_nodes chain else _) = _
      rw [if_neg (by rw [hattr2]; exact Bool.false_ne_true)]
    | str s => rfl
    | int n => rfl
    | none => rfl
    | dict es => rfl
    | obj attrs => rfl


theorem extract_with_relations_attr (chain : PyVal) (spec : FieldSpec)
    (hrel : spec.relations ≠ []) (hattr : chainRelationsAttr chain = true) :
    Explorer.extract_chain_codes chain (some spec) = Explorer.extracted_nodes chain := by
  unfold Explorer.extract_chain_codes
  simp only [Option.map_some', Option.getD_some]
  by_cases hempty : (Explorer.extracted_nodes chain).isEmpty
  · rw [if_pos hempty]
    cases hn : Explorer.extracted_nodes chain with
    | nil => rfl
    | cons a b => rw [hn] at hempty; exact absurd hempty (by simp)
  · rw [if_neg hempty]
    have hne : (!spec.relations.isEmpty) = true := by
      cases hsr : spec.relations with
      | nil => exact absurd hsr hrel
      | cons a b => rfl
    rw [if_pos hne]
    unfold chainRelationsAttr at hattr
    cases hga : pyGetattr chain "relations" with
    | none => rw [hga] at hattr; exact absurd hattr (by decide)
    | some v =>
      cases v with
      | list rs =>
        rw [hga] at hattr
        have hattr2 : (!rs.isEmpty) = true := hattr
        show (if (!rs.isEmpty) = true then Explorer.extracted_nodes chain else _) = _
        rw [if_pos hattr2]
      | str s =>
        rw [hga] at hattr
        exact absurd (show (false : Bool) = true from hattr) (by decide)
      | int n =>
        rw [hga] at hattr
        exact absurd (show (false : Bool) = true from hattr) (by decide)
      | none =>
        rw [hga] at hattr
        exact absurd (show (false : Bool) = true from hattr) (by decide)
      | dict es =>
        rw [hga] at hattr
        exact absurd (show (false : Bool) = true from hattr) (by decide)
      | obj attrs =>
        rw [hga] at hattr
        exact absurd (show (false : Bool) = true from hattr) (by decide)

theorem extract_no_relations (chain : PyVal) (spec : Option FieldSpec)
    (hrel : ((spec.map FieldSpec.relations).getD []) = []) :
    Explorer.extract_chain_codes chain spec = Explorer.extracted_nodes chain := by
  unfold Explorer.extract_chain_codes
  by_cases hempty : (Explorer.extracted_nodes chain).isEmpty
  · rw [if_pos hempty]
    cases hn : Explorer.extracted_nodes chain with
    | nil => rfl
    | cons a b => rw [hn] at hempty; exact absurd hempty (by simp)
  · rw [if_neg hempty]
    rw [if_neg]
    rw [hrel]
    decide

theorem iter_chain_tokens_odd (text : List Char) (base : Nat)
    (hodd : 3 ≤ (Explorer.chain_token_nodes text).length ∧
      (Explorer.chain_token_nodes text).length % 2 = 1) :
    Explorer.iter_chain_tokens text base true =
      (evenIndexed (Explorer.chain_token_nodes text)).map
        (fun p : String × Nat => (p.1, base + p.2)) := by
  unfold Explorer.iter_chain_tokens
  have hempty : (Explorer.chain_token_nodes text).isEmpty = false := by
    cases hn : Explorer.chain_token_nodes text with
    | nil => rw [hn] at hodd; exact absurd hodd.1 (by decide)
    | cons a b => rfl
  rw [if_neg (by rw [hempty]; exact Bool.false_ne_true)]
  rw [if_pos (by
    simp only [Bool.and_eq_true, decide_eq_true_eq]
    exact ⟨⟨trivial, hodd.1⟩, hodd.2⟩)]
  rw [sliceStep2_eq_evenIndexed]

theorem iter_chain_tokens_other (text : List Char) (base : Nat) (rel : Bool)
    (hnot : ¬(rel = true ∧ 3 ≤ (Explorer.chain_token_nodes text).length ∧
      (Explorer.chain_token_nodes text).length % 2 = 1)) :
    Explorer.iter_chain_tokens text base rel =
      (Explorer.chain_token_nodes text).map (fun p : String × Nat => (p.1, base + p.2)) := by
  unfold Explorer.iter_chain_tokens
  by_cases hempty : (Explorer.chain_token_nodes text).isEmpty
  · rw [if_pos hempty]
    cases hn : Explorer.chain_token_nodes text with
    | nil => rfl
    | cons a b => rw [hn] at hempty; exact absurd hempty (by simp)
  · rw [if_neg hempty]
    rw [if_neg (by
      simp only [Bool.and_eq_true, decide_eq_true_eq]
      intro hcon
      exact hnot ⟨hcon.1.1, hcon.1.2, hcon.2⟩)]

/-- The counterexample chain for C2: its field spec declares relations and
the extracted node list is five nodes, yet all five nodes are kept,
because the chain object itself carries a non-empty `relations`
attribute. -/
def chainC2 : PyVal :=
  .obj [("nodes", .list [.str "a", .str "r1", .str "b", .str "r2", .str "c"]),
        ("relations", .list [.str "r1", .str "r2"])]

/-- A relations-declaring field spec for the C2 instances. -/
def specC2 : FieldSpec := ⟨some ⟨some "ITEM", "ITEM"⟩, some ⟨some "CHAIN", "CHAIN"⟩, ["causes"]⟩

/-- C2 counterexample: the claim says a relations-declaring field with an
odd extracted node count of at least 3 always keeps exactly the
even-indexed nodes, but a chain carrying its own non-empty `relations`
list keeps all nodes. -/
theorem C2_counterexample :
    specC2.relations ≠ [] ∧
    3 ≤ (Explorer.extracted_nodes chainC2).length ∧
    (Explorer.extracted_nodes chainC2).length % 2 = 1 ∧
    Explorer.extract_chain_codes chainC2 (some specC2) = ["a", "r1", "b", "r2", "c"] ∧
    Explorer.extract_chain_codes chainC2 (some specC2) ≠
      evenIndexed (Explorer.extracted_nodes chainC2) := by
  refine ⟨by decide, by decide, by decide, by decide, by decide⟩

/-- C2 (amended).  For a chain whose owning field declares relations and
which does not itself carry a non-empty list-valued `relations` attribute,
an extracted node list of odd length at least 3 keeps exactly the
even-indexed nodes, and every other case keeps all nodes; a chain carrying
such a `relations` attribute keeps all nodes; without declared relations
all nodes are kept; the text-rescan tokenizer `_iter_chain_tokens` applies
the odd-length split rule unconditionally; and the five-node instance
`[a, r1, b, r2, c]` yields `[a, b, c]`. -/
theorem C2_chain_splitting_amended :
    (∀ (chain : PyVal) (spec : FieldSpec), spec.relations ≠ [] →
      chainRelationsAttr chain = false →
      (3 ≤ (Explorer.extracted_nodes chain).length ∧
          (Explorer.extracted_nodes chain).length % 2 = 1 →
        Explorer.extract_chain_codes chain (some spec) =
          evenIndexed (Explorer.extracted_nodes chain)) ∧
      (¬(3 ≤ (Explorer.extracted_nodes chain).length ∧
          (Explorer.extracted_nodes chain).length % 2 = 1) →
        Explorer.extract_chain_codes chain (some spec) = Explorer.extracted_nodes chain)) ∧
    (∀ (chain : PyVal) (spec : FieldSpec), spec.relations ≠ [] →
      chainRelationsAttr chain = true →
      Explorer.extract_chain_codes chain (some spec) = Explorer.extracted_nodes chain) ∧
    (∀ (chain : PyVal) (spec : Option FieldSpec),
      ((spec.map FieldSpec.relations).getD []) = [] →
      Explorer.extract_chain_codes chain spec = Explorer.extracted_nodes chain) ∧
    (∀ (text : List Char) (base : Nat),
      (3 ≤ (Explorer.chain_token_nodes text).length ∧
          (Explorer.chain_token_nodes text).length % 2 = 1 →
        Explorer.iter_chain_tokens text base true =
          (evenIndexed (Explorer.chain_token_nodes text)).map
            (fun p : String × Nat => (p.1, base + p.2))) ∧
      (∀ rel : Bool, ¬(rel = true ∧ 3 ≤ (Explorer.chain_token_nodes text).length ∧
          (Explorer.chain_token_nodes text).length % 2 = 1) →
        Explorer.iter_chain_tokens text base rel =
          (Explorer.chain_token_nodes text).map
            (fun p : String × Nat => (p.1, base + p.2)))) ∧
    Explorer.extract_chain_codes
      (.list [.str "a", .str "r1", .str "b", .str "r2", .str "c"])
      (some ⟨Option.none, Option.none, ["causes"]⟩) = ["a", "b", "c"] := by
  refine ⟨?_, extract_with_relations_attr, extract_no_relations, ?_, by decide⟩
  · intro chain spec hrel hattr
    constructor
    · intro hodd
      have hnonempty : (Explorer.extracted_nodes chain).isEmpty = false := by
        cases hn : Explorer.extracted_nodes chain with
        | nil => rw [hn] at hodd; exact absurd hodd.1 (by decide)
        | cons a b => rfl
      have hne : (!spec.relations.isEmpty) = true := by
        cases hsr : spec.relations with
        | nil => exact absurd hsr hrel
        | cons a b => rfl
      rw [extract_odd_branch chain spec hne hattr hnonempty]
      rw [if_pos (by
        simp only [Bool.and_eq_true, decide_eq_true_eq]
        exact ⟨hodd.1, hodd.2⟩)]
      exact sliceStep2_eq_evenIndexed _
    · intro hnot
      by_cases hempty : (Explorer.extracted_nodes chain).isEmpty
      · unfold Explorer.extract_chain_codes
        rw [if_pos hempty]
        cases hn : Explorer.extracted_nodes chain with
        | nil => rfl
        | cons a b => rw [hn] at hempty; exact absurd hempty (by simp)
      · have hne : (!spec.relations.isEmpty) = true := by
          cases hsr : spec.relations with
          | nil => exact absurd hsr hrel
          | cons a b => rfl
        rw [extract_odd_branch chain spec hne hattr (by
          cases hb : (Explorer.extracted_nodes chain).isEmpty with
          | true => exact absurd hb hempty
          | false => rfl)]
        rw [if_neg (by
          simp only [Bool.and_eq_true, decide_eq_true_eq]
          intro hcon
          exact hnot ⟨hcon.1, hcon.2⟩)]
  · intro text base
    exact ⟨iter_chain_tokens_odd text base, iter_chain_tokens_other text base⟩

/-- A five-node tuple chain for the C2 witness. -/
def chainTupleC2 : PyVal := .list [.str "a", .str "r1", .str "b", .str "r2", .str "c"]

/-- Witness for C2: the amended rule applied at the concrete five-node
tuple chain under a relations-declaring spec. -/
theorem C2_witness :
    Explorer.extract_chain_codes chainTupleC2 (some specC2) =
      evenIndexed (Explorer.extracted_nodes chainTupleC2) :=
  (C2_chain_splitting_amended.1 chainTupleC2 specC2 (by decide) (by decide)).1 (by decide)

/-! ## Result-cache capacity (C10) -/

theorem assocLookup_cons {α β : Type} [DecidableEq α] (k0 : α) (v0 : β) (rest : List (α × β))
    (k : α) :
    assocLookup ((k0, v0) :: rest) k = if k0 = k then some v0 else assocLookup rest k := rfl

theorem assocUpdate_length {α β : Type} [DecidableEq α] (m : List (α × β)) (k : α) (v : β) :
    (Explorer.assocUpdate m k v).length =
      if (assocLookup m k).isSome then m.length else m.length + 1 := by
  induction m with
  | nil => rfl
  | cons p rest ih =>
    obtain ⟨k0, v0⟩ := p
    show (if k0 = k then (k0, v) :: rest else (k0, v0) :: Explorer.assocUpdate rest k v).length = _
    rw [assocLookup_cons]
    by_cases h : k0 = k
    · rw [if_pos h, if_pos h]
      rw [if_pos (by rfl)]
      rfl
    · rw [if_neg h, if_neg h]
      show (Explorer.assocUpdate rest k v).length + 1 = _
      rw [ih]
      by_cases h2 : (assocLookup rest k).isSome
      · rw [if_pos h2, if_pos h2]
        rfl
      · rw [if_neg h2, if_neg h2]
        rfl

theorem assocUpdate_key_mem {α β : Type} [DecidableEq α] (m : List (α × β)) (k : α) (v : β) :
    k ∈ (Explorer.assocUpdate m k v).map Prod.fst := by
  induction m with
  | nil => exact List.mem_singleton.mpr rfl
  | cons p rest ih =>
    obtain ⟨k0, v0⟩ := p
    show k ∈ (if k0 = k then (k0, v) :: rest
      else (k0, v0) :: Explorer.assocUpdate rest k v).map Prod.fst
    by_cases h : k0 = k
    · rw [if_pos h, List.map_cons]
      subst h
      exact List.mem_cons_self k0 _
    · rw [if_neg h, List.map_cons]
      exact List.mem_cons_of_mem k0 ih

theorem assocUpdate_of_absent {α β : Type} [DecidableEq α] (m : List (α × β)) (k : α) (v : β)
    (h : assocLookup m k = Option.none) : Explorer.assocUpdate m k v = m ++ [(k, v)] := by
  induction m with
  | nil => rfl
  | cons p rest ih =>
    obtain ⟨k0, v0⟩ := p
    rw [assocLookup_cons] at h
    by_cases hk : k0 = k
    · rw [if_pos hk] at h
      exact absurd h (by simp)
    · rw [if_neg hk] at h
      show (if k0 = k then _ else (k0, v0) :: Explorer.assocUpdate rest k v) = _
      rw [if_neg hk, ih h, List.cons_append]

theorem result_cache_set_spec {α : Type} (maxSize : Nat)
    (cache : List (Explorer.ResultCacheKey × α)) (k : Explorer.ResultCacheKey) (v : α)
    (hmax : 1 ≤ maxSize) (hlen : cache.length ≤ maxSize) :
    (Explorer.result_cache_set maxSize cache (some k) v).length ≤ maxSize ∧
    k ∈ (Explorer.result_cache_set maxSize cache (some k) v).map Prod.fst := by
  have hred : Explorer.result_cache_set maxSize cache (some k) v =
      if (Explorer.assocUpdate cache k v).length > maxSize then
        (match Explorer.assocUpdate cache k v with
         | [] => Explorer.assocUpdate cache k v
         | (k0, v0) :: rest => if k0 ≠ k then rest else (k0, v0) :: rest)
      else Explorer.assocUpdate cache k v := rfl
  rw [hred]
  by_cases hover : (Explorer.assocUpdate cache k v).length > maxSize
  · rw [if_pos hover]
    have hfresh : assocLookup cache k = Option.none := by
      cases hs : assocLookup cache k with
      | none => rfl
      | some w =>
        rw [assocUpdate_length, if_pos (by rw [hs]; rfl)] at hover
        omega
    have hupd := assocUpdate_of_absent cache k v hfresh
    cases hu : Explorer.assocUpdate cache k v with
    | nil =>
      rw [hu] at hupd
      exact absurd hupd.symm (by simp)
    | cons p rest =>
      obtain ⟨k0, v0⟩ := p
      show (if k0 ≠ k then rest else (k0, v0) :: rest).length ≤ maxSize ∧
        k ∈ List.map Prod.fst (if k0 ≠ k then rest else (k0, v0) :: rest)
      by_cases hk0 : k0 ≠ k
      · rw [if_pos hk0]
        have hl := assocUpdate_length cache k v
        rw [hu, if_neg (by rw [hfresh]; simp)] at hl
        constructor
        · have : rest.length + 1 = cache.length + 1 := hl
          omega
        · have hmem := assocUpdate_key_mem cache k v
          rw [hu, List.map_cons] at hmem
          rcases List.mem_cons.mp hmem with h1 | h2
          · exact absurd h1.symm hk0
          · exact h2
      · exfalso
        rw [Classical.not_not] at hk0
        rw [hupd] at hu
        cases cache with
        | nil =>
          rw [hupd] at hover
          simp at hover
          omega
        | cons q qrest =>
          obtain ⟨kq, vq⟩ := q
          rw [List.cons_append] at hu
          have hqeq : kq = k0 ∧ vq = v0 ∧ qrest ++ [(k, v)] = rest := by
            have h1 := List.cons.injEq (kq, vq) (qrest ++ [(k, v)]) (k0, v0) rest ▸ hu
            rw [List.cons.injEq] at hu
            exact ⟨(Prod.mk.injEq _ _ _ _ ▸ hu.1).1, (Prod.mk.injEq _ _ _ _ ▸ hu.1).2, hu.2⟩
          have hkqk : kq = k := hqeq.1.trans hk0
          rw [assocLookup_cons, if_pos hkqk] at hfresh
          exact absurd hfresh (by simp)
  · rw [if_neg hover]
    exact ⟨by omega, assocUpdate_key_mem cache k v⟩

/-- C10.  After every insertion through `_relations_cache_set` or
`_annotations_cache_set` on a cache within the 4-entry capacity, the cache
still holds at most 4 entries, and the key just inserted is present
afterwards — so it is never the entry evicted. -/
theorem C10_cache_bound :
    (∀ (cache : Explorer.RelCache) (k : Explorer.ResultCacheKey)
        (v : Explorer.RelationsPayload), cache.length ≤ Explorer.RELATIONS_CACHE_MAX →
      (Explorer.relations_cache_set cache (some k) v).length ≤ Explorer.RELATIONS_CACHE_MAX ∧
      k ∈ (Explorer.relations_cache_set cache (some k) v).map Prod.fst) ∧
    (∀ (cache : Annot.AnnCache) (k : Explorer.ResultCacheKey)
        (v : Annot.AnnotationsPayload), cache.length ≤ Annot.ANNOTATIONS_CACHE_MAX →
      (Annot.annotations_cache_set cache (some k) v).length ≤ Annot.ANNOTATIONS_CACHE_MAX ∧
      k ∈ (Annot.annotations_cache_set cache (some k) v).map Prod.fst) :=
  ⟨fun cache k v h => result_cache_set_spec _ cache k v (by decide) h,
   fun cache k v h => result_cache_set_spec _ cache k v (by decide) h⟩

/-- Witness for C10: inserting a fifth key into a full four-entry
relations cache keeps the bound and the inserted key; likewise on the
annotations side with an empty cache. -/
theorem C10_witness :
    ((Explorer.relations_cache_set
        [(("a", 1, 1), ⟨true, Option.none, []⟩), (("b", 2, 2), ⟨true, Option.none, []⟩),
         (("c", 3, 3), ⟨true, Option.none, []⟩), (("d", 4, 4), ⟨true, Option.none, []⟩)]
        (some ("e", 5, 5)) ⟨true, Option.none, []⟩).length ≤ Explorer.RELATIONS_CACHE_MAX ∧
      ("e", 5, 5) ∈ (Explorer.relations_cache_set
        [(("a", 1, 1), ⟨true, Option.none, []⟩), (("b", 2, 2), ⟨true, Option.none, []⟩),
         (("c", 3, 3), ⟨true, Option.none, []⟩), (("d", 4, 4), ⟨true, Option.none, []⟩)]
        (some ("e", 5, 5)) ⟨true, Option.none, []⟩).map Prod.fst) ∧
    ((Annot.annotations_cache_set [] (some ("w", 7, 9))
        ⟨true, Option.none, some []⟩).length ≤ Annot.ANNOTATIONS_CACHE_MAX ∧
      ("w", 7, 9) ∈ (Annot.annotations_cache_set [] (some ("w", 7, 9))
        ⟨true, Option.none, some []⟩).map Prod.fst) :=
  ⟨C10_cache_bound.1 _ ("e", 5, 5) _ (by decide),
   C10_cache_bound.2 _ ("w", 7, 9) _ (by decide)⟩

/-! ## Missing-compilation envelopes (C7) -/

/-- C7.  Whenever the workspace has no cached compilation, or the cached
result carries no linked project, the four custom requests return a
structured failure envelope (success false with an error message) without
raising: `get_codes` and `get_references` return it inside `.ok`, and
`get_relations` and `get_ontology_annotations` return it while leaving
their module caches untouched. -/
theorem C7_no_compilation_envelopes (cached : Option CachedCompilation)
    (h : Explorer.get_linked_project cached = Option.none) :
    (∀ fs : Fs, ∃ p : Explorer.CodesPayload,
      Explorer.get_codes cached fs = .ok p ∧ p.success = false ∧ p.error.isSome = true) ∧
    (∃ p : Explorer.RefsPayload,
      Explorer.get_references cached = .ok p ∧ p.success = false ∧ p.error.isSome = true) ∧
    (∀ cache : Explorer.RelCache,
      (Explorer.get_relations cached cache).1.success = false ∧
      (Explorer.get_relations cached cache).1.error.isSome = true ∧
      (Explorer.get_relations cached cache).2 = cache) ∧
    (∀ (root af : Option String) (cache : Annot.AnnCache),
      (Annot.get_ontology_annotations cached root af cache).1.success = false ∧
      (Annot.get_ontology_annotations cached root af cache).1.error.isSome = true ∧
      (Annot.get_ontology_annotations cached root af cache).2 = cache) := by
  refine ⟨?_, ?_, ?_, ?_⟩
  · intro fs
    refine ⟨⟨false, some "Projeto não carregado", []⟩, ?_, rfl, rfl⟩
    unfold Explorer.get_codes
    rw [h]
  · refine ⟨⟨false, some "Projeto não carregado", []⟩, ?_, rfl, rfl⟩
    unfold Explorer.get_references
    rw [h]
  · intro cache
    have : Explorer.get_relations cached cache =
        (⟨false, some "Projeto não carregado", []⟩, cache) := by
      unfold Explorer.get_relations
      rw [h]
    rw [this]
    exact ⟨rfl, rfl, rfl⟩
  · intro root af cache
    unfold Explorer.get_linked_project at h
    cases cached with
    | none => exact ⟨rfl, rfl, rfl⟩
    | some c =>
      have h2 : (match c.result with
          | Option.none => Option.none
          | Option.some r => r.linked_project) = Option.none := h
      cases hr : c.result with
      | none =>
        have : Annot.get_ontology_annotations (some c) root af cache =
            (⟨false, some "Resultado de compilação inválido", Option.none⟩, cache) := by
          simp only [Annot.get_ontology_annotations, hr]
        rw [this]
        exact ⟨rfl, rfl, rfl⟩
      | some r =>
        rw [hr] at h2
        have h3 : r.linked_project = Option.none := h2
        cases hlp : r.linked_project with
        | none =>
          have : Annot.get_ontology_annotations (some c) root af cache =
              (⟨false, some "LinkedProject não disponível", Option.none⟩, cache) := by
            simp only [Annot.get_ontology_annotations, hr, hlp]
          rw [this]
          exact ⟨rfl, rfl, rfl⟩
        | some lp => rw [hlp] at h3; exact absurd h3 (by simp)

/-- Witness for C7: the envelopes at the concrete empty workspace
(no cached compilation at all). -/
theorem C7_witness :
    (∃ p : Explorer.CodesPayload,
      Explorer.get_codes Option.none [] = .ok p ∧ p.success = false ∧ p.error.isSome = true) ∧
    (Explorer.get_relations Option.none []).1.success = false ∧
    (Explorer.get_relations Option.none []).2 = ([] : Explorer.RelCache) ∧
    (Annot.get_ontology_annotations Option.none Option.none Option.none []).1.success = false :=
  ⟨(C7_no_compilation_envelopes Option.none rfl).1 [],
   ((C7_no_compilation_envelopes Option.none rfl).2.2.1 []).1,
   ((C7_no_compilation_envelopes Option.none rfl).2.2.1 []).2.2,
   ((C7_no_compilation_envelopes Option.none rfl).2.2.2 Option.none Option.none []).1⟩

/-! ## Relation-index first-wins (C3) -/

theorem assocLookup_append {α β : Type} [DecidableEq α] (l1 l2 : List (α × β)) (k : α) :
    assocLookup (l1 ++ l2) k =
      match assocLookup l1 k with
      | some v => some v
      | Option.none => assocLookup l2 k := by
  induction l1 with
  | nil => rfl
  | cons p rest ih =>
    obtain ⟨k0, v0⟩ := p
    by_cases hk : k0 = k
    · simp [assocLookup, hk]
    · simp only [List.cons_append, assocLookup, if_neg hk]
      exact ih

theorem relIndexFold_lookup (wr : Option String) (cs : List Explorer.RelCandidate)
    (index : List (Explorer.RelKey × Explorer.RelIndexEntry)) (k : Explorer.RelKey) :
    assocLookup (cs.foldl (Explorer.relIndexStep wr) index) k =
      match assocLookup index k with
      | some e => some e
      | Option.none =>
        (List.find? (fun p => decide (p.1 = k))
          (cs.filterMap (Explorer.resolveCandidate wr))).map Prod.snd := by
  induction cs generalizing index with
  | nil =>
    simp only [List.foldl_nil, List.filterMap_nil, List.find?_nil, Option.map_none]
    cases assocLookup index k <;> rfl
  | cons c cs ih =>
    rw [List.foldl_cons, ih]
    cases hres : Explorer.resolveCandidate wr c with
    | none =>
      have hstep : Explorer.relIndexStep wr index c = index := by
        unfold Explorer.relIndexStep
        rw [hres]
      rw [hstep, List.filterMap_cons_none hres]
    | some ke =>
      obtain ⟨k', e⟩ := ke
      rw [List.filterMap_cons_some hres]
      cases hidx : assocLookup index k' with
      | some v' =>
        have hstep : Explorer.relIndexStep wr index c = index := by
          simp [Explorer.relIndexStep, hres, hidx]
        rw [hstep]
        by_cases hk : k' = k
        · subst hk
          rw [hidx]
        · rw [List.find?_cons_of_neg _ (by simp [hk])]
      | none =>
        have hstep : Explorer.relIndexStep wr index c = index ++ [(k', e)] := by
          simp [Explorer.relIndexStep, hres, hidx]
        rw [hstep, assocLookup_append]
        by_cases hk : k' = k
        · subst hk
          cases hidx2 : assocLookup index k' with
          | some v => rw [hidx] at hidx2
          | none =>
            rw [List.find?_cons_of_pos _ (by simp)]
            simp [assocLookup]
        · rw [List.find?_cons_of_neg _ (by simp [hk])]
          cases assocLookup index k with
          | some v => rfl
          | none =>
            simp only [assocLookup, if_neg hk]

/-- C3.  First-wins in the relation index: after the full build — item
chains first, then the raw relation mappings, then the auxiliary chain
collections — the index entry stored under each normalized
(subject, relation, object) key, location included, is exactly the entry
produced by the first successfully resolved candidate for that key in
source order; later candidates for the same key never overwrite it. -/
theorem C3_relation_index_first_wins (lp : LinkedProject)
    (wr : Option String) (k : Explorer.RelKey) :
    assocLookup (Explorer.build_relation_index lp wr) k =
      (List.find? (fun p => decide (p.1 = k))
        ((Explorer.relation_candidates lp).filterMap
          (Explorer.resolveCandidate wr))).map Prod.snd := by
  unfold Explorer.build_relation_index
  rw [relIndexFold_lookup]
  rfl

/-! ## Annotations cache-hit purity (C9) -/

/-- C9.  A hit in the annotations result cache: with no active-file filter
the cached payload is returned exactly as stored; with an active file the
result is `filter_annotations_by_file` applied to the cached payload — a
fresh payload — and in both cases the cache itself (hence the stored full
result) is returned unchanged. -/
theorem C9_annotations_cache_hit_pure (c : CachedCompilation) (r : CompilationResult)
    (lp : LinkedProject) (wr af : Option String) (cache : Annot.AnnCache)
    (k : Explorer.ResultCacheKey) (p0 : Annot.AnnotationsPayload)
    (hr : c.result = some r) (hlp : r.linked_project = some lp)
    (hk : Annot.annotations_cache_key (some c)
      (match wr with | some w => some w | Option.none => c.workspace_root) = some k)
    (hhit : assocLookup cache k = some p0) :
    Annot.get_ontology_annotations (some c) wr af cache =
      ((match af with
        | some a => if !a.isEmpty then Annot.filter_annotations_by_file p0 a else p0
        | Option.none => p0), cache) := by
  cases af with
  | none =>
    simp only [Annot.get_ontology_annotations, hr, hlp, hk, hhit]
    rfl
  | some a =>
    simp only [Annot.get_ontology_annotations, hr, hlp, hk, hhit]
    rfl

/-- A minimal linked project used by concrete scenarios. -/
def lpC9 : LinkedProject :=
  ⟨.other, Option.none, Option.none, Option.none, Option.none, [], [],
   Option.none, Option.none, Option.none, Option.none, Option.none,
   Option.none, Option.none, Option.none, Option.none, Option.none⟩

/-- A cached payload for the C9 scenario. -/
def payC9 : Annot.AnnotationsPayload := ⟨true, Option.none, some []⟩

/-- The cached compilation of the C9 scenario: pyid 7, timestamp 5, no
workspace root. -/
def cC9 : CachedCompilation :=
  ⟨7, some ⟨some lpC9, Option.none⟩, some 5, Option.none⟩

/-- The annotations cache of the C9 scenario, holding the payload under
this compilation's key. -/
def cacheC9 : Annot.AnnCache := [(("", 7, 5), payC9)]

/-- Witness for C9 at the concrete scenario: the cache hit comes back
verbatim with the cache untouched. -/
theorem C9_witness :
    Annot.get_ontology_annotations (some cC9) Option.none Option.none cacheC9 =
      (payC9, cacheC9) :=
  C9_annotations_cache_hit_pure cC9 ⟨some lpC9, Option.none⟩ lpC9 Option.none Option.none
    cacheC9 ("", 7, 5) payC9 rfl rfl rfl rfl

/-! ## Occurrence identity-key dedup (C4) -/

/-- The identity key as the spec words it: file, line, column, context and
the *lower-cased* field name. -/
def specOccIdentKey (o : Explorer.Occ) :
    String × Option Int × Option Int × String × String :=
  (o.file, o.line, o.column, o.context, pyLower o.field)

theorem key_contains_iff
    (l : List (String × Option Int × Option Int × String × String))
    (k : String × Option Int × Option Int × String × String) :
    l.contains k = true ↔ k ∈ l := by
  induction l with
  | nil => simp
  | cons a rest ih => simp [List.contains_cons, ih]

/-- The dedup invariant of one `_build_code_occurrences` run: the emitted
occurrences carry pairwise-distinct verbatim identity keys, all of which
are recorded in the `seen` set. -/
def BInv (st : Explorer.BState) : Prop :=
  (st.occs.map Explorer.occIdentKey).Nodup ∧
  ∀ o ∈ st.occs, Explorer.occIdentKey o ∈ st.seen

theorem pushOcc_inv (st : Explorer.BState) (o : Explorer.Occ) (h : BInv st) :
    BInv (Explorer.pushOcc st o) := by
  unfold Explorer.pushOcc
  by_cases hc : Explorer.occIdentKey o ∈ st.seen
  · rw [if_pos ((key_contains_iff _ _).mpr hc)]
    exact h
  · rw [if_neg (fun hb => hc ((key_contains_iff _ _).mp hb))]
    refine ⟨?_, ?_⟩
    · rw [List.map_append]
      refine List.Nodup.append h.1 (by simp) ?_
      intro k hk1 hk2
      simp only [List.map_cons, List.map_nil, List.mem_cons, List.not_mem_nil,
        or_false] at hk2
      subst hk2
      simp only [List.mem_map] at hk1
      obtain ⟨o2, ho2, hko⟩ := hk1
      have hmem := h.2 o2 ho2
      rw [hko] at hmem
      exact hc hmem
    · intro o2 ho2
      rcases List.mem_append.mp ho2 with hmem | hmem
      · exact List.mem_append_left _ (h.2 o2 hmem)
      · simp only [List.mem_cons, List.not_mem_nil, or_false] at hmem
        subst hmem
        exact List.mem_append_right _ (by simp)

theorem pushOccFlag_inv (st : Explorer.BState × Bool) (o : Explorer.Occ)
    (h : BInv st.1) : BInv (Explorer.pushOccFlag st o).1 := by
  have hp := pushOcc_inv st.1 o h
  unfold Explorer.pushOcc at hp
  unfold Explorer.pushOccFlag
  by_cases hc : Explorer.occIdentKey o ∈ st.1.seen
  · rw [if_pos ((key_contains_iff _ _).mpr hc)]
    exact h
  · rw [if_neg (fun hb => hc ((key_contains_iff _ _).mp hb))]
    rw [if_neg (fun hb => hc ((key_contains_iff _ _).mp hb))] at hp
    exact hp

theorem foldl_inv {σ α : Type} (P : σ → Prop) (f : σ → α → σ)
    (hf : ∀ s a, P s → P (f s a)) :
    ∀ (l : List α) (s : σ), P s → P (l.foldl f s) := by
  intro l
  induction l with
  | nil => intro s h; exact h
  | cons a rest ih => intro s h; exact ih _ (hf s a h)

theorem exceptFold_inv {σ α : Type} (P : σ → Prop) (f : σ → α → Except PyExc σ)
    (hf : ∀ s a s2, P s → f s a = .ok s2 → P s2) :
    ∀ (l : List α) (s s2 : σ), P s → Explorer.exceptFold f s l = .ok s2 → P s2 := by
  intro l
  induction l with
  | nil =>
    intro s s2 hs heq
    unfold Explorer.exceptFold at heq
    cases heq
    exact hs
  | cons a rest ih =>
    intro s s2 hs heq
    unfold Explorer.exceptFold at heq
    cases hfa : f s a with
    | error e => rw [hfa] at heq; simp at heq
    | ok s3 => rw [hfa] at heq; exact ih s3 s2 (hf s a s3 hs hfa) heq

theorem buildExtraFieldStep_inv (code nc : String)
    (specs : List (String × FieldSpec)) (item : Item) (fp : String)
    (line column : Int) (st st2 : Explorer.BState) (p : String × PyVal)
    (h : BInv st)
    (heq : Explorer.buildExtraFieldStep code nc specs item fp line column st p
      = .ok st2) : BInv st2 := by
  obtain ⟨fn, v⟩ := p
  unfold Explorer.buildExtraFieldStep at heq
  dsimp only at heq
  split at heq
  · split at heq
    · cases heq
      exact h
    · split at heq
      · simp at heq
      · cases heq
        refine foldl_inv BInv _ ?_ _ _ h
        intro s a hs
        dsimp only
        split
        · exact hs
        · exact pushOcc_inv _ _ hs
  · split at heq
    · cases heq
      exact h
    · split at heq
      · simp at heq
      · split at heq
        · split at heq
          · simp at heq
          · cases heq
            refine foldl_inv BInv _ ?_ _ _ h
            intro s a hs
            exact pushOcc_inv _ _ hs
        · cases heq
          exact pushOcc_inv _ _ h

theorem buildChainStep_inv (nc : String) (cs : Option FieldSpec) (fp : String)
    (line column : Int) (st : Explorer.BState) (chain : PyVal) (h : BInv st) :
    BInv (Explorer.buildChainStep nc cs fp line column st chain) := by
  unfold Explorer.buildChainStep
  dsimp only
  split
  · exact h
  · split
    · exact pushOcc_inv _ _ h
    · exact h

theorem buildCodesFallback_inv (nc : String) (item : Item) (fp : String)
    (line column : Int) (st : Explorer.BState) (h : BInv st) :
    BInv (Explorer.buildCodesFallback nc item fp line column st) := by
  unfold Explorer.buildCodesFallback
  dsimp only
  split
  · split
    · exact pushOcc_inv _ _ h
    · exact h
  · exact h

theorem ifFoldFlag_inv (c : Bool) (l : List Explorer.Occ) (st : Explorer.BState)
    (q : Explorer.BState × Bool) (h : BInv st)
    (heq : (if c = true then l.foldl Explorer.pushOccFlag (st, false)
      else (st, false)) = q) :
    BInv q.1 := by
  subst heq
  split
  · exact foldl_inv (fun p : Explorer.BState × Bool => BInv p.1) _
      (fun s o hs => pushOccFlag_inv s o hs) l (st, false) h
  · exact h

theorem buildItemStep_inv (code nc : String) (specs : List (String × FieldSpec))
    (wr : Option String) (fs : Fs) (cf chf : List String)
    (cr : List (String × Bool)) (acc acc2 : Explorer.BState × Explorer.ScanCtx)
    (item : Item) (h : BInv acc.1)
    (heq : Explorer.buildItemStep code nc specs wr fs cf chf cr acc item
      = .ok acc2) : BInv acc2.1 := by
  obtain ⟨st, ctx⟩ := acc
  unfold Explorer.buildItemStep at heq
  dsimp only at heq
  cases h1 : Explorer.get_item_location item with
  | none => simp only [h1] at heq; cases heq; exact h
  | some item_loc =>
    simp only [h1] at heq
    cases h2 : item_loc.file with
    | none => simp only [h2] at heq; cases heq; exact h
    | some file_val =>
      simp only [h2] at heq
      by_cases h3 : file_val.isEmpty
      · rw [if_pos h3] at heq; cases heq; exact h
      · rw [if_neg h3] at heq
        cases h4 : item_loc.line with
        | none => simp only [h4] at heq; cases heq; exact h
        | some line =>
          simp only [h4] at heq
          cases h5 : item_loc.column with
          | none => simp only [h5] at heq; cases heq; exact h
          | some column =>
            simp only [h5] at heq
            cases h6 : Explorer.get_item_text_occurrences fs item wr ctx cf chf cr with
            | error e => simp only [h6] at heq; simp at heq
            | ok pr =>
              obtain ⟨tOcc, ctx2⟩ := pr
              simp only [h6] at heq
              split at heq
              · split at heq
                · cases heq
                  exact foldl_inv (fun p : Explorer.BState × Bool => BInv p.1)
                    Explorer.pushOccFlag (fun s o hs => pushOccFlag_inv s o hs) _ _ h
                · split at heq
                  · simp at heq
                  · rename_i st3 h7
                    cases heq
                    refine buildCodesFallback_inv _ _ _ _ _ _ ?_
                    refine foldl_inv BInv _ ?_ _ _ ?_
                    · intro s a hs
                      exact buildChainStep_inv _ _ _ _ _ _ a hs
                    · refine exceptFold_inv BInv _ (fun s a s2 hs hok =>
                        buildExtraFieldStep_inv _ _ _ _ _ _ _ _ _ _ hs hok) _ _ _ ?_ h7
                      exact foldl_inv (fun p : Explorer.BState × Bool => BInv p.1)
                        Explorer.pushOccFlag (fun s o hs => pushOccFlag_inv s o hs) _ _ h
              · dsimp only at heq
                split at heq
                · rename_i hff
                  simp at hff
                · split at heq
                  · simp at heq
                  · rename_i st3 h7
                    cases heq
                    refine buildCodesFallback_inv _ _ _ _ _ _ ?_
                    refine foldl_inv BInv _ ?_ _ _ ?_
                    · intro s a hs
                      exact buildChainStep_inv _ _ _ _ _ _ a hs
                    · exact exceptFold_inv BInv _ (fun s a s2 hs hok =>
                        buildExtraFieldStep_inv _ _ _ _ _ _ _ _ _ _ hs hok) _ _ _ h h7

/-- C4 (amended).  Within a single occurrence-list build for one code, the
returned occurrences have pairwise-distinct *verbatim* identity keys
(file, line, column, field as written, context); the builder's `seen` set
uses the field name verbatim, not lower-cased. -/
theorem C4_occurrence_keys_amended (code : String) (items : List Item)
    (specs : List (String × FieldSpec)) (wr : Option String) (fs : Fs)
    (ctx : Explorer.ScanCtx) (cf chf : List String) (cr : List (String × Bool))
    (occs : List Explorer.Occ) (ctx2 : Explorer.ScanCtx)
    (h : Explorer.build_code_occurrences code items specs wr fs ctx cf chf cr
      = .ok (occs, ctx2)) :
    (occs.map Explorer.occIdentKey).Nodup := by
  unfold Explorer.build_code_occurrences at h
  cases hfold : Explorer.exceptFold
      (Explorer.buildItemStep code (Explorer.normalize_code code) specs wr fs cf chf cr)
      (⟨⟨[], []⟩, ctx⟩) items with
  | error e => rw [hfold] at h; simp at h
  | ok acc =>
    rw [hfold] at h
    obtain ⟨stf, ctxf⟩ := acc
    have hinv : BInv stf := by
      refine exceptFold_inv (fun (q : Explorer.BState × Explorer.ScanCtx) => BInv q.1)
        _ ?_ items ⟨⟨[], []⟩, ctx⟩ (stf, ctxf) ?_ hfold
      · intro s a s2 hs hok
        exact buildItemStep_inv _ _ _ _ _ _ _ _ _ _ _ hs hok
      · exact ⟨by simp, by intro o ho; cases ho⟩
    have hocc : stf.occs = occs := by
      simp only at h
      exact (Prod.mk.injEq _ _ _ _).mp (Except.ok.injEq _ _ |>.mp h) |>.1
    rw [← hocc]
    exact hinv.1

/-- The chain location of the C4 scenario. -/
def chainLocC4 : PyVal := .obj [("line", .int 15), ("column", .int 5)]

/-- A chain mentioning code x at line 15, column 5. -/
def chainC4 : PyVal :=
  .obj [("nodes", .list [.str "x", .str "y", .str "z"]), ("location", chainLocC4)]

/-- The chain field spec of the C4 scenario. -/
def chainSpecC4 : FieldSpec := ⟨some ⟨some "ITEM", "ITEM"⟩, some ⟨some "CHAIN", "CHAIN"⟩, []⟩

/-- The item of the C4 scenario: the same chain reachable through the
extra field "chain" and through the chains list (whose default field tag
is "CHAIN"). -/
def itemC4 : Item :=
  { pyid := 2
    location := some ⟨some "a.syn", some 10, some 1⟩
    source := Option.none
    codes := []
    chains := [chainC4]
    extra_fields := [("chain", chainC4)]
    field_locations := Option.none
    code_locations := []
    name := Option.none
    id := Option.none }

/-- The field maps derived from the C4 template. -/
def mapsC4 : List String × List String × List (String × Bool) :=
  Explorer.item_field_maps [("chain", chainSpecC4)]

/-- The two occurrences the C4 build returns: same file, line, column and
context, field names "chain" and "CHAIN". -/
def occsC4 : List Explorer.Occ :=
  [⟨"a.syn", some 15, some 5, "chain", "chain"⟩,
   ⟨"a.syn", some 15, some 5, "chain", "CHAIN"⟩]

/-- Counterexample to C4 as stated: this concrete build returns two
occurrences whose identity keys with the field name lower-cased coincide —
the dedup key of the source keeps the field name verbatim, so "chain" and
"CHAIN" both survive. -/
theorem C4_counterexample :
    Explorer.build_code_occurrences "x" [itemC4] [("chain", chainSpecC4)] Option.none []
      ⟨[], []⟩ mapsC4.1 mapsC4.2.1 mapsC4.2.2 =
      .ok (occsC4, ⟨[], [(("a.syn", 10), [])]⟩) ∧
    ¬ (occsC4.map specOccIdentKey).Nodup :=
  ⟨rfl, by decide⟩

/-- Witness for the amended C4 statement at the same concrete build. -/
theorem C4_witness : (occsC4.map Explorer.occIdentKey).Nodup :=
  C4_occurrence_keys_amended "x" [itemC4] [("chain", chainSpecC4)] Option.none []
    ⟨[], []⟩ mapsC4.1 mapsC4.2.1 mapsC4.2.2 occsC4 ⟨[], [(("a.syn", 10), [])]⟩ rfl

/-! ## Ontology codes with zero usage (C6) -/

/-- The field specs `get_codes` reads from the cached template. -/
def codesFieldSpecs (cached_result : Option CachedCompilation) :
    List (String × FieldSpec) :=
  match (match cached_result with
    | some c =>
      match c.result with
      | some r => r.template
      | Option.none => Option.none
    | Option.none => Option.none) with
  | some t => t.field_specs
  | Option.none => []

theorem assocLookup_some_mem {α β : Type} [DecidableEq α] (m : List (α × β)) (k : α)
    (v : β) (h : assocLookup m k = some v) : (k, v) ∈ m := by
  induction m with
  | nil => simp [assocLookup] at h
  | cons p rest ih =>
    obtain ⟨k0, v0⟩ := p
    rw [assocLookup_cons] at h
    by_cases hk : k0 = k
    · rw [if_pos hk] at h
      cases h
      subst hk
      exact List.mem_cons_self _ _
    · rw [if_neg hk] at h
      exact List.mem_cons_of_mem _ (ih h)

theorem setdefault_fold_mono (onto : List (String × OntoNode))
    (m : List (String × List Item)) (p : String × List Item) (hp : p ∈ m) :
    p ∈ onto.foldl (fun m q => Explorer.assocSetdefault m q.1 []) m := by
  induction onto generalizing m with
  | nil => exact hp
  | cons q rest ih =>
    rw [List.foldl_cons]
    refine ih _ ?_
    show p ∈ Explorer.assocSetdefault m q.1 []
    unfold Explorer.assocSetdefault
    split
    · exact hp
    · exact List.mem_append_left _ hp

theorem lookup_setdefault_getD (m : List (String × List Item)) (q k : String) :
    (assocLookup (Explorer.assocSetdefault m q ([] : List Item)) k).getD [] =
      (assocLookup m k).getD [] := by
  unfold Explorer.assocSetdefault
  split
  · rfl
  · rw [assocLookup_append]
    cases hm : assocLookup m k with
    | some v => rfl
    | none =>
      rw [assocLookup_cons]
      by_cases hq : q = k
      · rw [if_pos hq]
        rfl
      · rw [if_neg hq]
        rfl

theorem mem_keys_codeUsageWithOntology (onto : List (String × OntoNode))
    (m : List (String × List Item)) (k : String) (hk : k ∈ onto.map Prod.fst) :
    (k, (assocLookup m k).getD []) ∈ Explorer.codeUsageWithOntology m onto := by
  induction onto generalizing m with
  | nil => simp at hk
  | cons q rest ih =>
    simp only [List.map_cons, List.mem_cons] at hk
    unfold Explorer.codeUsageWithOntology
    rw [List.foldl_cons]
    rcases hk with hk | hk
    · subst hk
      refine setdefault_fold_mono rest _ _ ?_
      show (q.1, (assocLookup m q.1).getD []) ∈ Explorer.assocSetdefault m q.1 []
      unfold Explorer.assocSetdefault
      cases hlk : assocLookup m q.1 with
      | some its0 =>
        simp only [Option.isSome_some, if_true, Option.getD_some]
        exact assocLookup_some_mem _ _ _ hlk
      | none =>
        simp only [Option.isSome_none, Bool.false_eq_true, if_false, Option.getD_none]
        exact List.mem_append_right _ (List.mem_cons_self _ _)
    · have := ih hk (m := Explorer.assocSetdefault m q.1 [])
      rw [lookup_setdefault_getD] at this
      exact this

theorem forall2_mem_left {α β : Type} {R : α → β → Prop} {l1 : List α} {l2 : List β}
    (h : List.Forall₂ R l1 l2) (a : α) (ha : a ∈ l1) : ∃ b ∈ l2, R a b := by
  induction h with
  | nil => cases ha
  | cons hr _ ih =>
    rcases List.mem_cons.mp ha with rfl | hmem
    · exact ⟨_, List.mem_cons_self _ _, hr⟩
    · obtain ⟨b, hb, hrb⟩ := ih hmem
      exact ⟨b, List.mem_cons_of_mem _ hb, hrb⟩

theorem codesFold_forall2 (field_specs : List (String × FieldSpec))
    (wr : Option String) (fs : Fs) (onto : List (String × OntoNode))
    (cf chf : List String) (cr : List (String × Bool)) :
    ∀ (usage : List (String × List Item)) (acc0 : List Explorer.CodesEntry)
      (ctx0 : Explorer.ScanCtx) (entries : List Explorer.CodesEntry)
      (ctxf : Explorer.ScanCtx),
      Explorer.exceptFold (fun (acc : List Explorer.CodesEntry × Explorer.ScanCtx)
          (p : String × List Item) =>
        match Explorer.build_code_occurrences p.1 p.2 field_specs wr fs acc.2 cf
            chf cr with
        | .ok (occs, ctx2) =>
          .ok (acc.1 ++ [⟨p.1, p.2.length,
            (assocLookup onto (Explorer.normalize_code p.1)).isSome, occs⟩], ctx2)
        | .error e => .error e) (acc0, ctx0) usage = .ok (entries, ctxf) →
      ∃ rest, entries = acc0 ++ rest ∧
        List.Forall₂ (fun (p : String × List Item) (e : Explorer.CodesEntry) =>
          e.code = p.1 ∧ e.usageCount = p.2.length ∧ (p.2 = [] → e.occurrences = []))
          usage rest := by
  intro usage
  induction usage with
  | nil =>
    intro acc0 ctx0 entries ctxf heq
    unfold Explorer.exceptFold at heq
    cases heq
    exact ⟨[], by simp, List.Forall₂.nil⟩
  | cons p ps ih =>
    intro acc0 ctx0 entries ctxf heq
    unfold Explorer.exceptFold at heq
    dsimp only at heq
    cases hb : Explorer.build_code_occurrences p.1 p.2 field_specs wr fs ctx0 cf
        chf cr with
    | error e => rw [hb] at heq; simp at heq
    | ok pr =>
      obtain ⟨occs, ctx2⟩ := pr
      rw [hb] at heq
      obtain ⟨rest, hent, hf2⟩ := ih _ _ _ _ heq
      refine ⟨⟨p.1, p.2.length,
        (assocLookup onto (Explorer.normalize_code p.1)).isSome, occs⟩ :: rest, ?_, ?_⟩
      · rw [hent]
        simp
      · refine List.Forall₂.cons ⟨rfl, rfl, ?_⟩ hf2
        intro hnil
        rw [hnil] at hb
        have hred : Explorer.build_code_occurrences p.1 [] field_specs wr fs ctx0 cf
            chf cr = .ok ([], ctx0) := rfl
        rw [hred] at hb
        cases hb
        rfl

/-- C6.  Every code of the ontology index appears as an entry of a
successful `get_codes` result even with zero usages; when the code has no
usage in the merged usage map, its entry reports usageCount 0 and an empty
occurrence list, so "unused but defined" is distinguishable from
"unknown". -/
theorem C6_ontology_zero_usage (cached : Option CachedCompilation) (fs : Fs)
    (lp : LinkedProject) (payload : Explorer.CodesPayload) (k : String)
    (hlp : Explorer.get_linked_project cached = some lp)
    (hok : Explorer.get_codes cached fs = .ok payload)
    (hk : k ∈ lp.ontology_index.map Prod.fst) :
    payload.success = true ∧
    (∃ e ∈ payload.codes, e.code = k) ∧
    (assocLookup (Explorer.codeUsageNormalized
        (Explorer.get_code_usage lp (codesFieldSpecs cached))) k = Option.none →
      ∃ e ∈ payload.codes, e.code = k ∧ e.usageCount = 0 ∧ e.occurrences = []) := by
  cases cached with
  | none => simp [Explorer.get_linked_project] at hlp
  | some c =>
    unfold Explorer.get_linked_project at hlp
    have hlp' : (match c.result with
      | Option.none => Option.none
      | some r => r.linked_project) = some lp := hlp
    cases hres : c.result with
    | none =>
      rw [hres] at hlp'
      have hn : (Option.none : Option LinkedProject) = some lp := hlp'
      cases hn
    | some r =>
      rw [hres] at hlp'
      have hlp2 : r.linked_project = some lp := hlp'
      unfold Explorer.get_codes at hok
      simp only [Explorer.get_linked_project, hres, hlp2] at hok
      have hfs : codesFieldSpecs (some c) =
          (match r.template with
            | some t => t.field_specs
            | Option.none => []) := by
        have h1 : codesFieldSpecs (some c) =
            (match (match c.result with
              | some r => r.template
              | Option.none => Option.none) with
            | some t => t.field_specs
            | Option.none => []) := rfl
        rw [h1, hres]
      split at hok
      · rename_i entries ctxf hfold
        cases hok
        obtain ⟨rest, hent, hf2⟩ := codesFold_forall2 _ _ _ _ _ _ _ _ _ _ _ _ hfold
        rw [List.nil_append] at hent
        subst hent
        have hmem := mem_keys_codeUsageWithOntology lp.ontology_index
          (Explorer.codeUsageNormalized (Explorer.get_code_usage lp
            (match r.template with
              | some t => t.field_specs
              | Option.none => []))) k hk
        obtain ⟨e, he, hre⟩ := forall2_mem_left hf2 _ hmem
        refine ⟨rfl, ⟨e, he, hre.1⟩, ?_⟩
        intro hnone
        rw [hfs] at hnone
        rw [hnone] at hre
        exact ⟨e, he, hre.1, by rw [hre.2.1]; rfl, hre.2.2 rfl⟩
      · rename_i e hfold
        cases hok

/-- The linked project of the C6 scenario: one ontology concept, no
sources, no usage. -/
def lpC6 : LinkedProject :=
  ⟨.other, Option.none, Option.none, Option.none, Option.none,
   [("proposito", ⟨Option.none⟩)], [],
   Option.none, Option.none, Option.none, Option.none, Option.none,
   Option.none, Option.none, Option.none, Option.none, Option.none⟩

/-- The cached compilation of the C6 scenario. -/
def cachedC6 : CachedCompilation :=
  ⟨101, some ⟨some lpC6, Option.none⟩, some 2, Option.none⟩

/-- Witness for C6 at the concrete scenario: the unused ontology code
surfaces with usageCount 0 and no occurrences. -/
theorem C6_witness :
    ∃ e ∈ (⟨true, Option.none,
        [⟨"proposito", 0, true, []⟩]⟩ : Explorer.CodesPayload).codes,
      e.code = "proposito" ∧ e.usageCount = 0 ∧ e.occurrences = [] :=
  (C6_ontology_zero_usage (some cachedC6) [] lpC6
    ⟨true, Option.none, [⟨"proposito", 0, true, []⟩]⟩ "proposito"
    rfl rfl (by decide)).2.2 rfl

/-! ## get_codes never raises (C1) -/

/-- The item of the C1 scenario, located at line 1 of a readable file. -/
def itemC1 : Item :=
  { pyid := 1
    location := some ⟨some "a.syn", some 1, some 1⟩
    source := Option.none
    codes := ["proposito"]
    chains := []
    extra_fields := []
    field_locations := Option.none
    code_locations := []
    name := Option.none
    id := Option.none }

/-- The linked project of the C1 scenario: one source with one item using
one code. -/
def lpC1 : LinkedProject :=
  { sources := .dict [("s", ⟨10, "@s", [itemC1], [], Option.none⟩)]
    code_usage := some [("proposito", [itemC1])]
    code_usage_index := Option.none
    code_usage_by_code := Option.none
    code_usage_map := Option.none
    ontology_index := []
    all_triples := []
    relation_index := Option.none
    relations_index := Option.none
    relation_locations := Option.none
    relation_location_index := Option.none
    triple_index := Option.none
    chains := Option.none
    all_chains := Option.none
    chain_index := Option.none
    relations := Option.none
    relation_triples := Option.none }

/-- The cached compilation of the C1 scenario. -/
def cachedC1 : CachedCompilation :=
  { pyid := 100
    result := some ⟨some lpC1, Option.none⟩
    timestamp := some 1
    workspace_root := Option.none }

/-- The readable workspace of the C1 scenario: the item's file exists and
holds a well-formed item block. -/
def fsC1 : Fs := [("a.syn", ["ITEM x", "  codes: proposito", "END ITEM"])]

/-- C1.  Refuted: `get_codes` CAN raise.  On this compiled project whose
single item sits in a readable file, re-scanning the item's block reaches
the module-level `re.match` call of the line parser, and the module never
imports `re` at top level (only `_find_code_in_field_value` imports it
function-locally), so the scan raises `NameError: name 're' is not
defined` instead of degrading to a fallback tier; `get_codes` propagates
it to its caller rather than returning a result envelope. -/
theorem C1_get_codes_raises :
    Explorer.get_codes (some cachedC1) fsC1 = .error (.nameError "re") := rfl
